import Mathlib

/-!
A shallow embedding of the DA-BOT agent platform core, together with proofs
about its safety monitor, execution coordinator, plan-approval loop and
LLM-response extraction layer.

Sources embedded:
* `src/tools/safety/failsafes.py` (`FailsafeSystem`)
* `src/tools/memory/memory.py` (plan/goal bookkeeping used by the coordinator)
* `src/tools/overseer/overseer.py` (`Overseer.execute_plan`, `Overseer._execute_step`)
* `src/tools/overseer/overseer_agent.py` (`OverseerAgent._create_plan`,
  `_clean_plan_steps`, `_enforce_capabilities_and_preconditions`)
* `src/tools/agents/base_agent.py` (`BaseAgent._extract_text_from_llm_response`)

Python floats (timestamps, critic scores) are modelled as rationals; Python
dicts holding optional string fields are modelled with `Option`; the external
LLM / critic / filesystem are modelled as oracle parameters.
-/

namespace DABot

/-! ## Safety monitor: src/tools/safety/failsafes.py -/

/-- `BudgetLimits` dataclass (failsafes.py, lines 16-22). -/
structure BudgetLimits where
  max_run_seconds : ℚ
  max_steps : Nat
  max_screenshots : Nat
  max_requests : Nat
deriving DecidableEq, Repr

/-- Default budget limits (failsafes.py defaults / `_load_policies`). -/
def defaultBudgetLimits : BudgetLimits :=
  { max_run_seconds := 1200, max_steps := 200, max_screenshots := 300, max_requests := 100 }

/-- `SafetyStatus` dataclass (failsafes.py, lines 32-39).  The per-tool
circuit-breaker map and the per-signature loop counter are association
lists. -/
structure SafetyStatus where
  killswitch_active : Bool
  pause_active : Bool
  budget_exceeded : Bool
  circuit_breakers : List (String × String)
  loop_detection : List (String × Nat)
deriving DecidableEq, Repr

/-- Python `dict.get(k, d)` on an association list. -/
def dictGet (m : List (String × α)) (k : String) (d : α) : α :=
  match m.find? (fun p => p.1 == k) with
  | some p => p.2
  | none => d

/-- Python `m[k] = v` on an association list. -/
def dictSet (m : List (String × α)) (k : String) (v : α) : List (String × α) :=
  match m with
  | [] => [(k, v)]
  | p :: rest => if p.1 == k then (k, v) :: rest else p :: dictSet rest k v

/-- The mutable state of `FailsafeSystem` (failsafes.py, lines 41-89):
safety flags plus the runtime counters.  `start_time` and the current
wall-clock time are rationals supplied by the environment. -/
structure FailsafeSystem where
  budget_limits : BudgetLimits
  safety_status : SafetyStatus
  start_time : ℚ
  step_count : Nat
  screenshot_count : Nat
  request_count : Nat
  dev_disable_safety : Bool
deriving DecidableEq, Repr

/-- `FailsafeSystem._check_control_files` (lines 140-158): the killswitch
flag is set (never cleared) when the killswitch file exists; the pause flag
mirrors the pause file's existence.  File existence is an oracle input. -/
def check_control_files (s : FailsafeSystem) (killswitch_file pause_file : Bool) :
    FailsafeSystem :=
  let st0 := s.safety_status
  let st1 := if killswitch_file then { st0 with killswitch_active := true } else st0
  let st2 :=
    if pause_file then { st1 with pause_active := true }
    else { st1 with pause_active := false }
  { s with safety_status := st2 }

/-- `FailsafeSystem._check_budgets` (lines 160-181): compares elapsed run
time, step count and screenshot count — and nothing else — against the
budget limits, setting `budget_exceeded` on any breach.  `now` is the
current wall-clock time. -/
def check_budgets (s : FailsafeSystem) (now : ℚ) : FailsafeSystem :=
  let run_time := now - s.start_time
  let st0 := s.safety_status
  let st1 := if run_time > s.budget_limits.max_run_seconds then
      { st0 with budget_exceeded := true } else st0
  let st2 := if s.step_count > s.budget_limits.max_steps then
      { st1 with budget_exceeded := true } else st1
  let st3 := if s.screenshot_count > s.budget_limits.max_screenshots then
      { st2 with budget_exceeded := true } else st2
  { s with safety_status := st3 }

/-- `FailsafeSystem.activate_killswitch` (lines 203-211), state part. -/
def activate_killswitch (s : FailsafeSystem) : FailsafeSystem :=
  { s with safety_status := { s.safety_status with killswitch_active := true } }

/-- `FailsafeSystem.deactivate_killswitch` (lines 213-222), state part. -/
def deactivate_killswitch (s : FailsafeSystem) : FailsafeSystem :=
  { s with safety_status := { s.safety_status with killswitch_active := false } }

/-- `FailsafeSystem.pause_system` (lines 224-232), state part. -/
def pause_system (s : FailsafeSystem) : FailsafeSystem :=
  { s with safety_status := { s.safety_status with pause_active := true } }

/-- `FailsafeSystem.resume_system` (lines 234-243), state part. -/
def resume_system (s : FailsafeSystem) : FailsafeSystem :=
  { s with safety_status := { s.safety_status with pause_active := false } }

/-- `FailsafeSystem.can_proceed` (lines 245-262). -/
def can_proceed (s : FailsafeSystem) : Bool :=
  if s.dev_disable_safety then true
  else if s.safety_status.killswitch_active then false
  else if s.safety_status.pause_active then false
  else if s.safety_status.budget_exceeded then false
  else true

/-- `FailsafeSystem.increment_step` (lines 264-266). -/
def increment_step (s : FailsafeSystem) : FailsafeSystem :=
  { s with step_count := s.step_count + 1 }

/-- `FailsafeSystem.increment_screenshot` (lines 268-270). -/
def increment_screenshot (s : FailsafeSystem) : FailsafeSystem :=
  { s with screenshot_count := s.screenshot_count + 1 }

/-- `FailsafeSystem.increment_request` (lines 272-274). -/
def increment_request (s : FailsafeSystem) : FailsafeSystem :=
  { s with request_count := s.request_count + 1 }

/-- `FailsafeSystem.check_circuit_breaker` (lines 276-279). -/
def check_circuit_breaker (s : FailsafeSystem) (tool_name : String) : Bool :=
  dictGet s.safety_status.circuit_breakers tool_name "closed" == "closed"

/-- `FailsafeSystem.open_circuit_breaker` (lines 281-284). -/
def open_circuit_breaker (s : FailsafeSystem) (tool_name : String) : FailsafeSystem :=
  { s with safety_status := { s.safety_status with
      circuit_breakers := dictSet s.safety_status.circuit_breakers tool_name "open" } }

/-- `FailsafeSystem.close_circuit_breaker` (lines 286-289). -/
def close_circuit_breaker (s : FailsafeSystem) (tool_name : String) : FailsafeSystem :=
  { s with safety_status := { s.safety_status with
      circuit_breakers := dictSet s.safety_status.circuit_breakers tool_name "closed" } }

/-- `FailsafeSystem.check_loop_detection` (lines 291-297). -/
def check_loop_detection (s : FailsafeSystem) (action_signature : String)
    (max_repeats : Nat := 3) : Bool :=
  decide (dictGet s.safety_status.loop_detection action_signature 0 < max_repeats)

/-- `FailsafeSystem.record_action` (lines 299-302). -/
def record_action (s : FailsafeSystem) (action_signature : String) : FailsafeSystem :=
  let current_count := dictGet s.safety_status.loop_detection action_signature 0
  { s with safety_status := { s.safety_status with
      loop_detection := dictSet s.safety_status.loop_detection action_signature (current_count + 1) } }

/-- One state-mutating call on the `FailsafeSystem`: the watchdog checks
(control files, budgets), the counter increments, the explicit control calls
and the circuit-breaker / loop-detection calls. -/
inductive FailsafeOp where
  | checkControlFiles (killswitch_file pause_file : Bool)
  | checkBudgets (now : ℚ)
  | incrementStep
  | incrementScreenshot
  | incrementRequest
  | activateKillswitch
  | deactivateKillswitch
  | pauseSystem
  | resumeSystem
  | openCircuitBreaker (tool_name : String)
  | closeCircuitBreaker (tool_name : String)
  | recordAction (action_signature : String)
deriving DecidableEq, Repr

/-- Interpretation of one `FailsafeOp` as the corresponding method. -/
def apply_op (s : FailsafeSystem) : FailsafeOp → FailsafeSystem
  | .checkControlFiles k p => check_control_files s k p
  | .checkBudgets now => check_budgets s now
  | .incrementStep => increment_step s
  | .incrementScreenshot => increment_screenshot s
  | .incrementRequest => increment_request s
  | .activateKillswitch => activate_killswitch s
  | .deactivateKillswitch => deactivate_killswitch s
  | .pauseSystem => pause_system s
  | .resumeSystem => resume_system s
  | .openCircuitBreaker t => open_circuit_breaker s t
  | .closeCircuitBreaker t => close_circuit_breaker s t
  | .recordAction sig => record_action s sig

/-- A sequence of `FailsafeSystem` calls, applied in order. -/
def apply_ops (s : FailsafeSystem) (ops : List FailsafeOp) : FailsafeSystem :=
  ops.foldl apply_op s

/-! ## Plan/goal bookkeeping: src/tools/memory/memory.py -/

/-- Plan status strings (memory.py, line 31). -/
inductive PlanStatus where
  | pending
  | executing
  | complete
  | failed
deriving DecidableEq, Repr

/-- Goal status strings (memory.py, line 20). -/
inductive GoalStatus where
  | pending
  | in_progress
  | complete
  | failed
deriving DecidableEq, Repr

/-- The mutable progress fields of a `Plan` (memory.py, lines 24-33):
`current_step` and `status`.  A fresh plan has `current_step = 0` and
status `"pending"`. -/
structure PlanState where
  current_step : Nat
  status : PlanStatus
deriving DecidableEq, Repr

/-- `Memory.update_plan_step` (memory.py, lines 195-202): sets
`current_step`, and sets `status` only when a (truthy) status argument is
passed. -/
def update_plan_step (p : PlanState) (current_step : Nat) (status : Option PlanStatus) :
    PlanState :=
  { current_step := current_step, status := status.getD p.status }

/-! ## Execution coordinator: src/tools/overseer/overseer.py -/

/-- Oracle view of the environment `Overseer.execute_plan` runs in.
`can_proceed_at i` is the value `self.failsafes.can_proceed()` returns at
the pre-step check of the step with 0-based index `i` (the shared safety
state is mutated concurrently by the watchdog, so it is an input here);
`planning_success i` and `operation_success i` are the `success` flags of
the overseer-agent and operator-agent responses inside
`Overseer._execute_step` for that step.  The perception phase never fails:
`_execute_perception_step` substitutes a truthy fallback result (overseer.py,
lines 320-324), and the validation phase's result does not affect step
success (lines 277-293). -/
structure ExecEnv where
  can_proceed_at : Nat → Bool
  planning_success : Nat → Bool
  operation_success : Nat → Bool

/-- `Overseer._execute_step` (overseer.py, lines 249-297), abstracted over
the agent oracles: the step succeeds iff the planning phase and then the
operation phase both return a successful response, and exactly on success
one entry is appended to `execution_history`.  Returns the success flag and
the new history length. -/
def execute_step (env : ExecEnv) (step_index : Nat) (history : Nat) : Bool × Nat :=
  if env.planning_success step_index then
    if env.operation_success step_index then (true, history + 1)
    else (false, history)
  else (false, history)

/-- The observable outcome of `Overseer.execute_plan`: the final plan
progress record, the length of `execution_history` (the ExecutionRecords),
how many steps were dispatched to `_execute_step`, the boolean return
value, and the sequence of plan states written by each
`Memory.update_plan_step` call, in order. -/
structure ExecResult where
  plan : PlanState
  records : Nat
  dispatched : Nat
  ok : Bool
  trace : List PlanState
deriving DecidableEq, Repr

/-- The per-step loop of `Overseer.execute_plan` (overseer.py, lines
216-247).  `rest` is the suffix of steps not yet attempted and
`step_index` the 0-based index of its head; on exhausting the steps the
plan is marked complete at `current_step = step_index` (which then equals
`len(plan.steps)`). -/
def execute_plan_loop (env : ExecEnv) (rest : List α) (step_index : Nat)
    (p : PlanState) (records dispatched : Nat) : ExecResult :=
  match rest with
  | [] =>
    let p1 := update_plan_step p step_index (some .complete)
    { plan := p1, records := records, dispatched := dispatched, ok := true, trace := [p1] }
  | _ :: rest' =>
    if env.can_proceed_at step_index then
      let dispatched1 := dispatched + 1
      match execute_step env step_index records with
      | (true, records1) =>
        let p1 := update_plan_step p (step_index + 1) none
        let r := execute_plan_loop env rest' (step_index + 1) p1 records1 dispatched1
        { r with trace := p1 :: r.trace }
      | (false, records1) =>
        let p1 := update_plan_step p step_index (some .failed)
        { plan := p1, records := records1, dispatched := dispatched1, ok := false,
          trace := [p1] }
    else
      { plan := p, records := records, dispatched := dispatched, ok := false, trace := [] }

/-- `Overseer.execute_plan` (overseer.py, lines 201-247): marks the plan
executing at `current_step = 0`, then runs the step loop. -/
def execute_plan (env : ExecEnv) (steps : List α) : ExecResult :=
  let p0 := update_plan_step { current_step := 0, status := .pending } 0 (some .executing)
  let r := execute_plan_loop env steps 0 p0 0 0
  { r with trace := p0 :: r.trace }

/-- `Overseer.run` (overseer.py, lines 403-431), restricted to what it does
with the plan-execution result: the goal is marked complete when
`execute_plan` returned `True` and failed otherwise. -/
def run_goal (env : ExecEnv) (steps : List α) : GoalStatus × ExecResult :=
  let r := execute_plan env steps
  (if r.ok then .complete else .failed, r)

/-! ## Plan-step normalization: src/tools/overseer/overseer_agent.py -/

/-- Whitespace recognised by Python's `str.strip`. -/
def isPySpace (c : Char) : Bool :=
  c == ' ' || c == '\t' || c == '\n' || c == '\r' || c == '\x0b' || c == '\x0c'

/-- Python `str.lstrip()`. -/
def pyLstrip (l : List Char) : List Char := l.dropWhile isPySpace

/-- Python `str.rstrip()`. -/
def pyRstrip (l : List Char) : List Char := (l.reverse.dropWhile isPySpace).reverse

/-- Python `str.strip()`. -/
def pyStripChars (l : List Char) : List Char := pyRstrip (pyLstrip l)

/-- Python `str.strip()` on `String`. -/
def pyStrip (s : String) : String := String.mk (pyStripChars s.data)

/-- Python truthiness of an optional string: `None` and `""` are falsy. -/
def truthyStr : Option String → Option String
  | some s => if s.isEmpty then none else some s
  | none => none

/-- `a or b or default` over optional strings, with Python truthiness. -/
def pyOr2 (a b : Option String) (d : String) : String :=
  match truthyStr a with
  | some s => s
  | none =>
    match truthyStr b with
    | some s => s
    | none => d

/-- The fields of an untrusted plan-step dict that `_clean_plan_steps` and
`_canonicalize_overseer_response` read.  `none` models a missing key. -/
structure StepDict where
  id : Option Int
  description : Option String
  next_agent : Option String
  agent : Option String
  action : Option String
  success_criteria : Option String
  priority : Option String
deriving DecidableEq, Repr

/-- One element of an untrusted plan list: a free-text step, a dict step, or
anything else (a number, `None`, ...). -/
inductive StepIn where
  | strStep (s : String)
  | dictStep (d : StepDict)
  | otherStep
deriving DecidableEq, Repr

/-- The structured step record `_clean_plan_steps` produces (overseer_agent.py,
lines 497-529).  `id` is `none` for the synthetic precondition step before
renumbering; `coordinates` is `none` when the key is absent or `None` (the
records built by `_clean_plan_steps` never carry coordinates). -/
structure StepRec where
  id : Option Int
  description : String
  next_agent : String
  action : String
  success_criteria : String
  priority : String
  coordinates : Option (Int × Int)
deriving DecidableEq, Repr

/-- `OverseerAgent.CAPABILITIES[role]["actions"]` (overseer_agent.py, lines
12-28); unknown roles give the empty list (`CAPABILITIES.get(ag, {}).get("actions", [])`). -/
def capability_actions (ag : String) : List String :=
  if ag == "perception" then ["analyze", "identify"]
  else if ag == "operator" then ["move_mouse", "click", "type", "scroll", "navigate"]
  else if ag == "overseer" then ["plan", "coordinate", "evaluate", "complete"]
  else if ag == "critic" then ["evaluate"]
  else if ag == "router" then ["validate", "block", "allow", "circuit_breaker"]
  else []

/-- The role-dependent safe default action
(`"analyze" if ag=="perception" else ("navigate" if ag=="operator" else "plan")`). -/
def default_action (ag : String) : String :=
  if ag == "perception" then "analyze"
  else if ag == "operator" then "navigate"
  else "plan"

/-- The record a non-empty string step at 1-based position `i` becomes
(overseer_agent.py, lines 495-505): default perception/analyze. -/
def clean_str_step (i : Nat) (t : String) : StepRec :=
  { id := some (Int.ofNat i), description := t, next_agent := "perception",
    action := "analyze", success_criteria := "Step completed successfully",
    priority := "medium", coordinates := none }

/-- The record a dict step at 1-based position `i` becomes
(overseer_agent.py, lines 506-530): the role falls back through
`next_agent`/`agent`/`"perception"` and is forced into the three known
roles; a missing action gets the role default and operator actions are
forced into the supported set; the remaining fields get literal defaults. -/
def clean_dict_step (i : Nat) (d : StepDict) : StepRec :=
  let na0 := (pyOr2 d.next_agent d.agent "perception").toLower
  let na := if na0 == "perception" || na0 == "operator" || na0 == "overseer" then na0
    else "perception"
  let act0 :=
    match truthyStr d.action with
    | some a => a
    | none => default_action na
  let act :=
    if na == "operator" then
      if (["move_mouse", "click", "type", "scroll", "navigate"]).contains act0 then act0
      else "navigate"
    else act0
  { id := some (d.id.getD (Int.ofNat i)),
    description := d.description.getD ("Step " ++ toString i),
    next_agent := na, action := act,
    success_criteria := d.success_criteria.getD "Step completed successfully",
    priority := d.priority.getD "medium",
    coordinates := none }

/-- The body of the `for i, step in enumerate(steps, 1)` loop of
`OverseerAgent._clean_plan_steps` (overseer_agent.py, lines 494-530):
non-empty strings become default perception/analyze records, dicts are
normalized field by field, and everything else (empty or whitespace-only
strings, non-str non-dict values) is skipped. -/
def clean_plan_steps_aux : Nat → List StepIn → List StepRec
  | _, [] => []
  | i, .strStep s :: rest =>
    let t := pyStrip s
    if t.isEmpty then clean_plan_steps_aux (i + 1) rest
    else clean_str_step i t :: clean_plan_steps_aux (i + 1) rest
  | i, .dictStep d :: rest => clean_dict_step i d :: clean_plan_steps_aux (i + 1) rest
  | i, .otherStep :: rest => clean_plan_steps_aux (i + 1) rest

/-- The hardcoded fallback plan substituted when no step survives cleaning
(overseer_agent.py, lines 533-567). -/
def default_plan_steps : List StepRec :=
  [{ id := some 1, description := "Analyze current environment and identify requirements",
     next_agent := "perception", action := "analyze",
     success_criteria := "List required capabilities identified", priority := "high",
     coordinates := none },
   { id := some 2, description := "Plan specific actions needed",
     next_agent := "overseer", action := "plan",
     success_criteria := "Action plan created", priority := "high", coordinates := none },
   { id := some 3, description := "Execute planned actions",
     next_agent := "operator", action := "execute",
     success_criteria := "Actions executed successfully", priority := "high",
     coordinates := none },
   { id := some 4, description := "Verify results and assess completion",
     next_agent := "overseer", action := "evaluate",
     success_criteria := "Goal completion verified", priority := "high",
     coordinates := none }]

/-- `OverseerAgent._clean_plan_steps` (overseer_agent.py, lines 490-569). -/
def clean_plan_steps (steps : List StepIn) : List StepRec :=
  let cleaned := clean_plan_steps_aux 1 steps
  if cleaned.isEmpty then default_plan_steps else cleaned

/-- `needs_coords` inside `_enforce_capabilities_and_preconditions`
(overseer_agent.py, lines 63-65). -/
def needs_coordinates (s : StepRec) : Bool :=
  s.next_agent == "operator" &&
    (s.action == "move_mouse" || s.action == "click" || s.action == "scroll")

/-- The synthetic perception precondition step inserted before an operator
step that lacks coordinates (overseer_agent.py, lines 80-87). -/
def precondition_step : StepRec :=
  { id := none,
    description := "Identify target UI element and return coordinates required by next operator action",
    next_agent := "perception", action := "identify",
    success_criteria := "Coordinates provided", priority := "high", coordinates := none }

/-- The action normalization of `_enforce_capabilities_and_preconditions`
(overseer_agent.py, lines 68-76): default a missing action by role, then
coerce any action outside the role's capability set to the role's safe
default. -/
def enforce_action (ag act : String) : String :=
  let act0 := if act.isEmpty then default_action ag else act
  if (capability_actions ag).contains act0 then act0 else default_action ag

/-- The per-step update `s["action"] = act` of
`_enforce_capabilities_and_preconditions`. -/
def enforce_step_action (s : StepRec) : StepRec :=
  { s with action := enforce_action s.next_agent s.action }

/-- The output-building loop of `_enforce_capabilities_and_preconditions`
(overseer_agent.py, lines 67-89): each (normalized) step is appended, with
`precondition_step` appended just before it when it needs coordinates and
has none. -/
def enforce_aux : List StepRec → List StepRec
  | [] => []
  | s :: rest =>
    let s1 := enforce_step_action s
    if needs_coordinates s1 && s1.coordinates.isNone then
      precondition_step :: s1 :: enforce_aux rest
    else s1 :: enforce_aux rest

/-- The final id renumbering (`for i, st in enumerate(out, 1): st["id"] = i`,
overseer_agent.py, lines 91-93). -/
def renumber_from : Nat → List StepRec → List StepRec
  | _, [] => []
  | i, s :: rest => { s with id := some (Int.ofNat i) } :: renumber_from (i + 1) rest

/-- `OverseerAgent._enforce_capabilities_and_preconditions`
(overseer_agent.py, lines 59-95). -/
def enforce_capabilities_and_preconditions (steps : List StepRec) : List StepRec :=
  renumber_from 1 (enforce_aux steps)

/-- The step-normalization pipeline `_create_plan` applies to every draft
plan (overseer_agent.py, lines 254-258): `_clean_plan_steps` followed by
`_enforce_capabilities_and_preconditions`. -/
def normalize_plan_steps (steps : List StepIn) : List StepRec :=
  enforce_capabilities_and_preconditions (clean_plan_steps steps)

/-- Spec-side predicate: the step is an operator step that needs screen
coordinates (per `needs_coords`) and does not carry them — exactly the
condition under which the source inserts a precondition step. -/
def requires_missing_coordinates (s : StepRec) : Bool :=
  needs_coordinates s && s.coordinates.isNone

/-- Spec-side predicate: the step is a perception `identify` step, i.e. a
coordinate-producing precondition. -/
def is_identify_precondition (s : StepRec) : Bool :=
  s.next_agent == "perception" && s.action == "identify"

/-- `is_identify_precondition` of an optional predecessor (`none` = the step
is first in the plan). -/
def opt_identify : Option StepRec → Bool
  | some p => is_identify_precondition p
  | none => false

/-- Spec-side check: every step that requires but lacks coordinates is
immediately preceded by a perception `identify` step.  `prev` is the step
just before the list (if any). -/
def pre_guarded : Option StepRec → List StepRec → Bool
  | _, [] => true
  | prev, s :: rest =>
    (if requires_missing_coordinates s then opt_identify prev else true) &&
      pre_guarded (some s) rest

/-- Spec-side predicate: the kinds of plan-list entries `_clean_plan_steps`
keeps (nonempty strings and dicts); empty/whitespace strings and non-str
non-dict entries are dropped. -/
def step_kept : StepIn → Bool
  | .strStep s => !(pyStrip s).isEmpty
  | .dictStep _ => true
  | .otherStep => false

/-- A sample untrusted plan: a free-text step followed by an operator click
step without coordinates. -/
def sample_plan_input : List StepIn :=
  [.strStep "Click the button",
   .dictStep { id := none, description := some "click it", next_agent := some "operator",
               agent := none, action := some "click", success_criteria := none,
               priority := none }]

/-! ## Plan-approval loop: OverseerAgent._create_plan -/

/-- The fields of a critic verdict that `_create_plan` reads:
`overall_score` and `issues_found` (overseer_agent.py, lines 268, 281). -/
structure CriticVerdict where
  overall_score : ℚ
  issues_found : List String
deriving DecidableEq, Repr

/-- What the external world (planner LLM + critic) produces in one iteration
of the approval loop: the canonicalized `plan` list of the planner response,
the critic validation (`none` models `_validate_plan_with_critic` returning
`None`), and whether `_improve_plan_with_critic` returns an improved plan. -/
structure IterOutcome where
  plan : List StepIn
  critic : Option CriticVerdict
  improve_ok : Bool
deriving Repr

/-- The observable fields of the response `_create_plan` returns:
`response.get("plan_approved", False)`, `success`, `approval_iterations`,
the value of the `consecutive_failures` counter at return, and how many
planner iterations were consumed. -/
structure CreatePlanResult where
  plan_approved : Bool
  success : Bool
  approval_iterations : Nat
  consecutive_failures : Nat
  outcomes_consumed : Nat
deriving DecidableEq, Repr

/-- How `_create_plan` ends: with a response, or (debug mode, 3 consecutive
failures) with `sys.exit(1)` (overseer_agent.py, lines 298-303). -/
inductive CreatePlanOutcome where
  | result (r : CreatePlanResult)
  | fatalExit
deriving DecidableEq, Repr

/-- The post-loop finalization of `_create_plan` (overseer_agent.py, lines
311-317): when the loop left `iteration ≥ max_iterations`, the response is
stamped unapproved (overwriting any in-loop approval); otherwise `success`
is forced to `True`.  `success0` is the `success` field the response had
when the loop ended. -/
def finalize_response (approved_in_loop : Bool) (iteration : Nat) (success0 : Bool)
    (cf consumed : Nat) : CreatePlanResult :=
  if iteration ≥ 3 then
    { plan_approved := false, success := success0, approval_iterations := iteration,
      consecutive_failures := cf, outcomes_consumed := consumed }
  else
    { plan_approved := approved_in_loop, success := true, approval_iterations := iteration,
      consecutive_failures := cf, outcomes_consumed := consumed }

/-- The loop variables of `_create_plan` at a loop-condition check: how many
planner calls were made so far (`idx`), the `iteration` and
`consecutive_failures` counters, and the `success` field of the most
recently built response (used only at normal loop exit). -/
structure ApprovalState where
  idx : Nat
  iteration : Nat
  consecutive_failures : Nat
  prev_success : Bool
deriving DecidableEq, Repr

/-- What one pass through the `while` loop of `_create_plan` does: either
the function returns (`done`) or the loop comes back around with updated
counters (`next`). -/
inductive ApprovalStep where
  | done (out : CreatePlanOutcome)
  | next (st : ApprovalState)
deriving DecidableEq, Repr

/-- One entry into the `while iteration < max_iterations` loop of
`_create_plan` (overseer_agent.py, lines 231-317), with
`max_iterations = 3` and `approval_threshold = 0.8`, on an oracle stream
`env` of per-iteration outcomes.  An empty draft plan increments
`consecutive_failures` and skips the failure-reset check via `continue`
(lines 249-252); approval breaks out of the loop (lines 273-278); an
improvement pass leaves the counter unchanged (lines 281-287); otherwise
the counter increments, and on reaching 3 the loop either exits the
process (debug mode) or resets `iteration` and the counter to 0 and keeps
going (lines 297-309).  When the loop condition fails, the post-loop
finalization runs (lines 311-317). -/
def create_plan_step (env : Nat → IterOutcome) (debug : Bool) (st : ApprovalState) :
    ApprovalStep :=
  if st.iteration < 3 then
    let it := st.iteration + 1
    let o := env st.idx
    if o.plan.isEmpty then
      .next { idx := st.idx + 1, iteration := it,
              consecutive_failures := st.consecutive_failures + 1, prev_success := false }
    else
      match o.critic with
      | some v =>
        if v.overall_score ≥ 4 / 5 then
          .done (.result (finalize_response true it true 0 (st.idx + 1)))
        else if !v.issues_found.isEmpty && o.improve_ok then
          if st.consecutive_failures ≥ 3 then
            if debug then .done .fatalExit
            else .next { idx := st.idx + 1, iteration := 0, consecutive_failures := 0,
                         prev_success := true }
          else .next { idx := st.idx + 1, iteration := it,
                       consecutive_failures := st.consecutive_failures,
                       prev_success := true }
        else
          let cf := st.consecutive_failures + 1
          if cf ≥ 3 then
            if debug then .done .fatalExit
            else .next { idx := st.idx + 1, iteration := 0, consecutive_failures := 0,
                         prev_success := true }
          else .next { idx := st.idx + 1, iteration := it, consecutive_failures := cf,
                       prev_success := true }
      | none =>
        let cf := st.consecutive_failures + 1
        if cf ≥ 3 then
          if debug then .done .fatalExit
          else .next { idx := st.idx + 1, iteration := 0, consecutive_failures := 0,
                       prev_success := true }
        else .next { idx := st.idx + 1, iteration := it, consecutive_failures := cf,
                     prev_success := true }
  else
    .done (.result (finalize_response false st.iteration st.prev_success
      st.consecutive_failures st.idx))

/-- The `while` loop of `_create_plan`, iterating `create_plan_step`.
`fuel` bounds the number of loop entries we are willing to observe:
`none` means the loop is still running after `fuel` entries. -/
def create_plan_loop (env : Nat → IterOutcome) (debug : Bool) :
    Nat → ApprovalState → Option CreatePlanOutcome
  | 0, _ => none
  | fuel + 1, st =>
    match create_plan_step env debug st with
    | .done out => some out
    | .next st1 => create_plan_loop env debug fuel st1

/-- `OverseerAgent._create_plan` (overseer_agent.py, lines 220-333), started
from a fresh state (`iteration = 0`, `consecutive_failures = 0`), observed
for at most `fuel` loop entries. -/
def create_plan (env : Nat → IterOutcome) (debug : Bool) (fuel : Nat) :
    Option CreatePlanOutcome :=
  create_plan_loop env debug fuel
    { idx := 0, iteration := 0, consecutive_failures := 0, prev_success := false }

/-- `_create_plan` terminates on response stream `env`: some finite number
of loop entries suffices to produce its outcome. -/
def CreatePlanTerminates (env : Nat → IterOutcome) (debug : Bool) : Prop :=
  ∃ fuel, create_plan env debug fuel ≠ none

/-- The run of `_create_plan` on stream `env`, as the sequence of loop
states it visits: `approval_trace env debug n` is the state at the `n`-th
loop-condition check, or `none` once the function has returned. -/
def approval_trace (env : Nat → IterOutcome) (debug : Bool) : Nat → Option ApprovalState
  | 0 => some { idx := 0, iteration := 0, consecutive_failures := 0, prev_success := false }
  | n + 1 =>
    match approval_trace env debug n with
    | some st =>
      match create_plan_step env debug st with
      | .next st1 => some st1
      | .done _ => none
    | none => none

/-- The value the `consecutive_failures` variable holds at the end of the
loop entry starting from state `st` (the value the `>= 3` reset check
tests, when that check is reached): an empty draft plan or a failed
iteration increments it, an approval resets it to 0, a successful
improvement pass leaves it unchanged, and a loop entry whose `while`
condition already failed does not touch it. -/
def loop_entry_counter (env : Nat → IterOutcome) (st : ApprovalState) : Nat :=
  if st.iteration < 3 then
    let o := env st.idx
    if o.plan.isEmpty then st.consecutive_failures + 1
    else
      match o.critic with
      | some v =>
        if v.overall_score ≥ 4 / 5 then 0
        else if !v.issues_found.isEmpty && o.improve_ok then st.consecutive_failures
        else st.consecutive_failures + 1
      | none => st.consecutive_failures + 1
  else st.consecutive_failures

/-! ## Response extraction: src/tools/agents/base_agent.py -/

/-- The quote/escape/brace-depth state of `_scan_last_valid_json_obj`
(base_agent.py, lines 108-113): whether the scanner is inside a quoted
string, whether the previous character was an escaping backslash, the
current brace depth, and the index of the opening brace of the current
top-level span. -/
structure ScanCore where
  in_str : Bool
  esc : Bool
  brace : Nat
  start : Option Nat
deriving DecidableEq, Repr

/-- One character step of `_scan_last_valid_json_obj` (base_agent.py, lines
115-141): returns the next state and, when this character closes a
top-level `{...}` span, the stripped candidate text.  Characters inside
strings and escaped characters are ignored for brace counting. -/
def scan_step (text : List Char) (i : Nat) (ch : Char) (c : ScanCore) :
    ScanCore × Option (List Char) :=
  if c.esc then ({ c with esc := false }, none)
  else if ch == '\\' then ({ c with esc := c.in_str }, none)
  else if ch == '"' then ({ c with in_str := !c.in_str }, none)
  else if c.in_str then (c, none)
  else if ch == '\x7b' then
    let c1 := if c.brace == 0 then { c with start := some i } else c
    ({ c1 with brace := c1.brace + 1 }, none)
  else if ch == '\x7d' then
    if c.brace > 0 then
      let c1 := { c with brace := c.brace - 1 }
      if c1.brace == 0 then
        match c.start with
        | some s0 => (c1, some (pyStripChars ((text.drop s0).take (i + 1 - s0))))
        | none => (c1, none)
      else (c1, none)
    else (c, none)
  else (c, none)

/-- The character loop of `_scan_last_valid_json_obj`: each completed
top-level span is kept as `last_valid` iff it parses as JSON (the
`json.loads` acceptance test is the oracle `parses`). -/
def scan_from (parses : List Char → Bool) (text : List Char) :
    ScanCore → Option (List Char) → Nat → List Char → Option (List Char)
  | _, last_valid, _, [] => last_valid
  | c, last_valid, i, ch :: rest =>
    match scan_step text i ch c with
    | (c1, some candidate) =>
      scan_from parses text c1 (if parses candidate then some candidate else last_valid)
        (i + 1) rest
    | (c1, none) => scan_from parses text c1 last_valid (i + 1) rest

/-- `_scan_last_valid_json_obj` (base_agent.py, lines 108-142). -/
def scan_last_valid_json_obj (parses : List Char → Bool) (text : List Char) :
    Option (List Char) :=
  scan_from parses text { in_str := false, esc := false, brace := 0, start := none }
    none 0 text

/-- The same character scan, collecting every completed top-level balanced
span (parsing or not), in order of completion.  This is the spec-side
description of "record every top-level balanced `{...}` span"; the theorem
for C4 relates it to `scan_last_valid_json_obj`. -/
def spans_from (text : List Char) :
    ScanCore → List (List Char) → Nat → List Char → List (List Char)
  | _, acc, _, [] => acc
  | c, acc, i, ch :: rest =>
    match scan_step text i ch c with
    | (c1, some candidate) => spans_from text c1 (acc ++ [candidate]) (i + 1) rest
    | (c1, none) => spans_from text c1 acc (i + 1) rest

/-- All top-level balanced `{...}` spans of `text`, stripped, in order. -/
def top_level_spans (text : List Char) : List (List Char) :=
  spans_from text { in_str := false, esc := false, brace := 0, start := none } [] 0 text

/-- The `"assistantfinal"` delimiter (base_agent.py, lines 144-149). -/
def final_token : List Char := "assistantfinal".data

/-- Python `token in s` / `s.split(token, 1)[1]`: the text after the first
occurrence of `token`, or `none` when `token` does not occur. -/
def after_first_token (token : List Char) : List Char → Option (List Char)
  | [] => none
  | l@(_ :: rest) =>
    if token.isPrefixOf l then some (l.drop token.length)
    else after_first_token token rest

/-- Does `l` start with the (case-insensitive) tag `json`? -/
def is_json_tag (l : List Char) : Bool :=
  match l with
  | a :: b :: c :: d :: _ =>
    a.toLower == 'j' && b.toLower == 's' && c.toLower == 'o' && d.toLower == 'n'
  | _ => false

/-- Split at the first occurrence of a closing triple backtick: the text
before it and the text after it. -/
def split_at_triple_backtick : List Char → Option (List Char × List Char)
  | [] => none
  | l@(c :: rest) =>
    if ("```".data).isPrefixOf l then some ([], l.drop 3)
    else
      match split_at_triple_backtick rest with
      | some (a, b) => some (c :: a, b)
      | none => none

/-- Model of `re.findall(r"```(?:json)?\s*([\s\S]*?)\s*```", segment,
flags=re.IGNORECASE)` (base_agent.py, line 152): fenced blocks, optional
`json` tag, leading whitespace eaten greedily, lazy capture so trailing
whitespace before the closing fence is dropped.  `fuel` bounds the scan
(each step consumes at least one character). -/
def find_code_blocks_aux : Nat → List Char → List (List Char)
  | 0, _ => []
  | _ + 1, [] => []
  | fuel + 1, l@(_ :: rest) =>
    if ("```".data).isPrefixOf l then
      let l1 := l.drop 3
      let l2 := if is_json_tag l1 then l1.drop 4 else l1
      let l3 := l2.dropWhile isPySpace
      match split_at_triple_backtick l3 with
      | some (content, rest1) => pyRstrip content :: find_code_blocks_aux fuel rest1
      | none => find_code_blocks_aux fuel rest
    else find_code_blocks_aux fuel rest

/-- All fenced code blocks of `l`, in order. -/
def find_code_blocks (l : List Char) : List (List Char) :=
  find_code_blocks_aux (l.length + 1) l

/-- The `for text in search_order` loop (base_agent.py, lines 160-163):
the first candidate text on which the scanner finds a valid object wins. -/
def first_scan_hit (parses : List Char → Bool) : List (List Char) → Option (List Char)
  | [] => none
  | t :: rest =>
    match scan_last_valid_json_obj parses t with
    | some found => some found
    | none => first_scan_hit parses rest

/-- `BaseAgent._extract_text_from_llm_response` (base_agent.py, lines
104-165): prefer the segment after the first `assistantfinal`, then the
last fenced code block, then the segment, then (when a delimiter was split
off) the full response; fall back to the stripped response. -/
def extract_text_from_llm_response (parses : List Char → Bool) (response : List Char) :
    List Char :=
  let segment :=
    match after_first_token final_token response with
    | some after => pyLstrip after
    | none => response
  let code_blocks := find_code_blocks segment
  let search_order :=
    (match code_blocks.getLast? with
     | some cb => [cb]
     | none => []) ++ [segment] ++
      (if (after_first_token final_token response).isSome then [response] else [])
  match first_scan_hit parses search_order with
  | some found => found
  | none => pyStripChars response

/-- Concrete extraction input: prose containing two balanced JSON objects. -/
def two_objects_input : String :=
  "first \x7b\"role\":\"a\",\"action\":\"b\"\x7d then \x7b\"role\":\"c\",\"action\":\"d\"\x7d"

/-- The second (later) of the two objects above. -/
def two_objects_second : String := "\x7b\"role\":\"c\",\"action\":\"d\"\x7d"

/-- Concrete extraction input: reasoning prose (containing an earlier JSON
object) followed by the `assistantfinal` delimiter and the final object. -/
def assistantfinal_input : String :=
  "Some reasoning \x7b\"draft\": 1\x7d more prose assistantfinal\x7b\"role\":\"x\",\"action\":\"y\",\"success\":true\x7d"

/-- The object after the delimiter above. -/
def assistantfinal_object : String :=
  "\x7b\"role\":\"x\",\"action\":\"y\",\"success\":true\x7d"

/-- Concrete extraction input: a quoted string containing literal braces,
followed by a real JSON object. -/
def quoted_brace_input : String :=
  "\"note\": \"a \x7b b \x7d\" \x7b\"role\":\"x\",\"action\":\"y\"\x7d"

/-- The real object after the quoted braces above. -/
def quoted_brace_object : String := "\x7b\"role\":\"x\",\"action\":\"y\"\x7d"


/-! ### A model of `json.loads` acceptance

`_scan_last_valid_json_obj` feeds each candidate span to `json.loads`
(base_agent.py, line 138), an external library call; the scanner above is
therefore parametric in the acceptance oracle.  For concrete inputs we
instantiate it with the following standard JSON grammar acceptor. -/

/-- JSON insignificant whitespace. -/
def json_ws (l : List Char) : List Char :=
  l.dropWhile (fun c => c == ' ' || c == '\t' || c == '\n' || c == '\r')

/-- Hexadecimal digit test for `\uXXXX` escapes. -/
def isHexChar (c : Char) : Bool :=
  c.isDigit || (c ≥ 'a' && c ≤ 'f') || (c ≥ 'A' && c ≤ 'F')

/-- JSON string body, after the opening quote: returns the input remaining
after the closing quote. -/
def parse_json_string : List Char → Option (List Char)
  | [] => none
  | '"' :: rest => some rest
  | '\\' :: 'u' :: h1 :: h2 :: h3 :: h4 :: rest =>
    if isHexChar h1 && isHexChar h2 && isHexChar h3 && isHexChar h4 then
      parse_json_string rest
    else none
  | '\\' :: c :: rest =>
    if c == '"' || c == '\\' || c == '/' || c == 'b' || c == 'f' || c == 'n' ||
        c == 'r' || c == 't' then
      parse_json_string rest
    else none
  | _ :: rest => parse_json_string rest

/-- One or more digits, consumed greedily. -/
def parse_digits1 : List Char → Option (List Char)
  | c :: rest => if c.isDigit then some (rest.dropWhile Char.isDigit) else none
  | [] => none

/-- Optional JSON fraction part. -/
def parse_json_frac : List Char → Option (List Char)
  | '.' :: rest => parse_digits1 rest
  | l => some l

/-- Optional JSON exponent part. -/
def parse_json_exp : List Char → Option (List Char)
  | c :: rest =>
    if c == 'e' || c == 'E' then
      match rest with
      | s :: rest1 => if s == '+' || s == '-' then parse_digits1 rest1 else parse_digits1 rest
      | [] => none
    else some (c :: rest)
  | [] => some []

/-- JSON number. -/
def parse_json_number (l : List Char) : Option (List Char) :=
  let l1 := match l with | '-' :: r => r | _ => l
  match l1 with
  | c :: r =>
    if c.isDigit then (parse_json_frac (r.dropWhile Char.isDigit)).bind parse_json_exp
    else none
  | [] => none

mutual

/-- JSON value; `fuel` bounds the nesting depth. -/
def parse_json_value : Nat → List Char → Option (List Char)
  | 0, _ => none
  | fuel + 1, l =>
    match json_ws l with
    | '\x7b' :: rest => parse_json_object fuel rest true
    | '[' :: rest => parse_json_array fuel rest true
    | '"' :: rest => parse_json_string rest
    | 't' :: 'r' :: 'u' :: 'e' :: rest => some rest
    | 'f' :: 'a' :: 'l' :: 's' :: 'e' :: rest => some rest
    | 'n' :: 'u' :: 'l' :: 'l' :: rest => some rest
    | l1 => parse_json_number l1

/-- JSON object members, after the opening brace (or after a comma when
`first = false`, where a closing brace is no longer allowed). -/
def parse_json_object : Nat → List Char → Bool → Option (List Char)
  | 0, _, _ => none
  | fuel + 1, l, first =>
    match json_ws l with
    | '\x7d' :: rest => if first then some rest else none
    | '"' :: rest =>
      match parse_json_string rest with
      | some afterKey =>
        match json_ws afterKey with
        | ':' :: afterColon =>
          match parse_json_value fuel afterColon with
          | some afterVal =>
            match json_ws afterVal with
            | ',' :: afterComma => parse_json_object fuel afterComma false
            | '\x7d' :: rest1 => some rest1
            | _ => none
          | none => none
        | _ => none
      | none => none
    | _ => none

/-- JSON array elements, after the opening bracket. -/
def parse_json_array : Nat → List Char → Bool → Option (List Char)
  | 0, _, _ => none
  | fuel + 1, l, first =>
    match json_ws l with
    | ']' :: rest => if first then some rest else none
    | l1 =>
      match parse_json_value fuel l1 with
      | some afterVal =>
        match json_ws afterVal with
        | ',' :: afterComma => parse_json_array fuel afterComma false
        | ']' :: rest1 => some rest1
        | _ => none
      | none => none

end

/-- Acceptance model of `json.loads` (the external parser the scanner calls):
the input is a single JSON value followed only by whitespace. -/
def jsonOk (l : List Char) : Bool :=
  match parse_json_value (l.length + 1) l with
  | some rest => (json_ws rest).isEmpty
  | none => false

/-! ## Concrete sample states and environments -/

/-- A failsafe state whose budget flag is already raised. -/
def failsafe_budget_set : FailsafeSystem where
  budget_limits := defaultBudgetLimits
  safety_status :=
    { killswitch_active := false, pause_active := false, budget_exceeded := true,
      circuit_breakers := [], loop_detection := [] }
  start_time := 0
  step_count := 0
  screenshot_count := 0
  request_count := 0
  dev_disable_safety := false

/-- A failsafe state within all limits, with 90 requests already counted. -/
def failsafe_budget_clear : FailsafeSystem where
  budget_limits := defaultBudgetLimits
  safety_status :=
    { killswitch_active := false, pause_active := false, budget_exceeded := false,
      circuit_breakers := [], loop_detection := [] }
  start_time := 0
  step_count := 3
  screenshot_count := 7
  request_count := 90
  dev_disable_safety := false

/-- Execution environment for a run in which the failsafe check denies
progress before the third step (0-based index 2) and every agent succeeds. -/
def halt_before_step3_env : ExecEnv where
  can_proceed_at := fun i => decide (i < 2)
  planning_success := fun _ => true
  operation_success := fun _ => true

/-- Execution environment in which the second step (0-based index 1) fails
in its operation phase and everything else succeeds. -/
def fail_step2_env : ExecEnv where
  can_proceed_at := fun _ => true
  planning_success := fun _ => true
  operation_success := fun i => decide (i ≠ 1)

/-- Execution environment in which everything succeeds. -/
def all_success_env : ExecEnv where
  can_proceed_at := fun _ => true
  planning_success := fun _ => true
  operation_success := fun _ => true

/-- A planner/critic stream that always returns a nonempty plan scored 0.5
with no issues found. -/
def low_score_no_issues_env : Nat → IterOutcome := fun _ =>
  { plan := [.strStep "do x"],
    critic := some { overall_score := 1 / 2, issues_found := [] },
    improve_ok := false }

/-- A planner/critic stream whose first two iterations score 0.5 and whose
third scores exactly the 0.8 approval threshold. -/
def late_approval_env : Nat → IterOutcome := fun i =>
  if i < 2 then
    { plan := [.strStep "do x"],
      critic := some { overall_score := 1 / 2, issues_found := [] },
      improve_ok := false }
  else
    { plan := [.strStep "do x"],
      critic := some { overall_score := 4 / 5, issues_found := [] },
      improve_ok := false }

/-- A planner/critic stream that scores exactly the 0.8 approval threshold
on every iteration. -/
def exact_approval_env : Nat → IterOutcome := fun _ =>
  { plan := [.strStep "do x"],
    critic := some { overall_score := 4 / 5, issues_found := [] },
    improve_ok := false }

/-- A planner/critic stream whose first iteration scores 0.5 with no issues
(one consecutive failure) and whose later iterations score exactly the 0.8
threshold. -/
def late_approval_one_failure_env : Nat → IterOutcome := fun i =>
  if i = 0 then
    { plan := [.strStep "do x"],
      critic := some { overall_score := 1 / 2, issues_found := [] },
      improve_ok := false }
  else
    { plan := [.strStep "do x"],
      critic := some { overall_score := 4 / 5, issues_found := [] },
      improve_ok := false }

/-! ## Theorems -/

/-- Every `FailsafeSystem` call preserves a raised `budget_exceeded` flag:
no operation ever writes `false` into it. -/
theorem apply_op_budget_mono (s : FailsafeSystem) (op : FailsafeOp)
    (h : s.safety_status.budget_exceeded = true) :
    (apply_op s op).safety_status.budget_exceeded = true := by
  cases op <;>
    simp only [apply_op, check_control_files, check_budgets, increment_step,
      increment_screenshot, increment_request, activate_killswitch,
      deactivate_killswitch, pause_system, resume_system, open_circuit_breaker,
      close_circuit_breaker, record_action] <;>
    first
    | (split_ifs <;> simp [h])
    | exact h

/-- C5: `can_proceed` returns true iff the dev-override flag is set, or none
of killswitch-active, pause-active and budget-exceeded hold; in particular
it is true whenever the override is set, and false whenever the override is
unset and any of the three flags is active (failsafes.py, lines 245-262). -/
theorem can_proceed_iff (s : FailsafeSystem) :
    can_proceed s = true ↔
      (s.dev_disable_safety = true ∨
        (s.safety_status.killswitch_active = false ∧
          s.safety_status.pause_active = false ∧
          s.safety_status.budget_exceeded = false)) := by
  rcases s with ⟨bl, ⟨k, p, b, cb, ld⟩, st, sc, scr, rq, dev⟩
  cases dev <;> cases k <;> cases p <;> cases b <;> simp [can_proceed]

/-- C6: `budget_exceeded` is monotonic within a run: once set by a budget
check, no sequence of `FailsafeSystem` operations (budget checks, counter
increments, control-file checks, killswitch/pause toggles, circuit-breaker
or loop-detection calls) ever sets it back to false. -/
theorem budget_exceeded_monotonic (s : FailsafeSystem) (ops : List FailsafeOp)
    (h : s.safety_status.budget_exceeded = true) :
    (apply_ops s ops).safety_status.budget_exceeded = true := by
  induction ops generalizing s with
  | nil => exact h
  | cons op rest ih => exact ih (apply_op s op) (apply_op_budget_mono s op h)

/-- Witness for C6 at a concrete state and call sequence. -/
theorem budget_exceeded_monotonic_witness :
    (apply_ops failsafe_budget_set
      [.checkBudgets 5, .incrementStep, .incrementRequest,
        .checkControlFiles false true, .recordAction "a", .resumeSystem,
        .checkBudgets 100]).safety_status.budget_exceeded = true :=
  budget_exceeded_monotonic failsafe_budget_set _ (by rfl)

/-- `increment_request` only bumps the request counter. -/
theorem iterate_increment_request (s : FailsafeSystem) (n : Nat) :
    increment_request^[n] s = { s with request_count := s.request_count + n } := by
  induction n with
  | zero => simp
  | succ n ih =>
    rw [Function.iterate_succ_apply', ih]
    simp [increment_request, Nat.add_assoc]

/-- C10: the request counter is tracked but never enforced: `_check_budgets`
compares only elapsed run time, step count and screenshot count against the
limits, so any number of `increment_request` calls — even driving
`request_count` arbitrarily far past `max_requests` — followed by a budget
check within the time/step/screenshot limits leaves `budget_exceeded`
false. -/
theorem request_counter_not_enforced (s : FailsafeSystem) (n : Nat) (now : ℚ)
    (hb : s.safety_status.budget_exceeded = false)
    (ht : now - s.start_time ≤ s.budget_limits.max_run_seconds)
    (hs : s.step_count ≤ s.budget_limits.max_steps)
    (hc : s.screenshot_count ≤ s.budget_limits.max_screenshots) :
    (increment_request^[n] s).request_count = s.request_count + n ∧
    (check_budgets (increment_request^[n] s) now).safety_status.budget_exceeded = false := by
  rw [iterate_increment_request]
  refine ⟨rfl, ?_⟩
  have e1 : ¬(now - s.start_time > s.budget_limits.max_run_seconds) := not_lt.mpr ht
  have e2 : ¬(s.step_count > s.budget_limits.max_steps) := not_lt.mpr hs
  have e3 : ¬(s.screenshot_count > s.budget_limits.max_screenshots) := not_lt.mpr hc
  simp [check_budgets, e1, e2, e3, hb]

/-- Witness for C10: 500 request increments push the counter to 590, far
past the limit of 100, and the next budget check still reports no breach. -/
theorem request_counter_not_enforced_witness :
    90 + 500 > defaultBudgetLimits.max_requests ∧
    ((increment_request^[500] failsafe_budget_clear).request_count = 90 + 500 ∧
      (check_budgets (increment_request^[500] failsafe_budget_clear)
        10).safety_status.budget_exceeded = false) :=
  ⟨by decide,
    request_counter_not_enforced failsafe_budget_clear 500 10 rfl
      (by norm_num [failsafe_budget_clear, defaultBudgetLimits])
      (by norm_num [failsafe_budget_clear, defaultBudgetLimits])
      (by norm_num [failsafe_budget_clear, defaultBudgetLimits])⟩

/-- If the first `m` steps succeed and the failsafe check then denies
progress, the step loop returns `False` having added `m` records and `m`
dispatches, leaving the plan's status untouched at `current_step = i + m`. -/
theorem execute_plan_loop_halt (env : ExecEnv) :
    ∀ (m : Nat) (rest : List α) (i : Nat) (p : PlanState) (records dispatched : Nat),
      p.current_step = i →
      m < rest.length →
      (∀ j, j < m → env.can_proceed_at (i + j) = true) →
      env.can_proceed_at (i + m) = false →
      (∀ j, j < m → env.planning_success (i + j) = true ∧
        env.operation_success (i + j) = true) →
      (execute_plan_loop env rest i p records dispatched).records = records + m ∧
      (execute_plan_loop env rest i p records dispatched).dispatched = dispatched + m ∧
      (execute_plan_loop env rest i p records dispatched).ok = false ∧
      (execute_plan_loop env rest i p records dispatched).plan =
        { current_step := i + m, status := p.status } := by
  intro m
  induction m with
  | zero =>
    intro rest i p records dispatched hp hm hcp hhalt hstep
    match rest with
    | [] => simp at hm
    | x :: rest' =>
      have h0 : env.can_proceed_at i = false := by simpa using hhalt
      refine ⟨?_, ?_, ?_, ?_⟩ <;> simp [execute_plan_loop, h0]
      cases p
      simp_all
  | succ m ih =>
    intro rest i p records dispatched hp hm hcp hhalt hstep
    match rest with
    | [] => simp at hm
    | x :: rest' =>
      have h0 : env.can_proceed_at i = true := by simpa using hcp 0 (Nat.succ_pos m)
      have hps : env.planning_success i = true := by
        simpa using (hstep 0 (Nat.succ_pos m)).1
      have hos : env.operation_success i = true := by
        simpa using (hstep 0 (Nat.succ_pos m)).2
      have hexec : execute_step env i records = (true, records + 1) := by
        simp [execute_step, hps, hos]
      have hm' : m < rest'.length := by simpa using Nat.lt_of_succ_lt_succ hm
      have hcp' : ∀ j, j < m → env.can_proceed_at (i + 1 + j) = true := by
        intro j hj
        have := hcp (j + 1) (by omega)
        rwa [show i + (j + 1) = i + 1 + j by omega] at this
      have hhalt' : env.can_proceed_at (i + 1 + m) = false := by
        rwa [show i + 1 + m = i + (m + 1) by omega]
      have hstep' : ∀ j, j < m → env.planning_success (i + 1 + j) = true ∧
          env.operation_success (i + 1 + j) = true := by
        intro j hj
        have := hstep (j + 1) (by omega)
        rwa [show i + (j + 1) = i + 1 + j by omega] at this
      have hp1 : (update_plan_step p (i + 1) none).current_step = i + 1 := rfl
      obtain ⟨e1, e2, e3, e4⟩ :=
        ih rest' (i + 1) (update_plan_step p (i + 1) none) (records + 1)
          (dispatched + 1) hp1 hm' hcp' hhalt' hstep'
      simp only [update_plan_step, Option.getD_none] at e1 e2 e3 e4
      refine ⟨?_, ?_, ?_, ?_⟩
      · simp only [execute_plan_loop, h0, if_true, hexec, update_plan_step,
          Option.getD_none]
        rw [e1]
        omega
      · simp only [execute_plan_loop, h0, if_true, hexec, update_plan_step,
          Option.getD_none]
        rw [e2]
        omega
      · simp only [execute_plan_loop, h0, if_true, hexec, update_plan_step,
          Option.getD_none]
        exact e3
      · simp only [execute_plan_loop, h0, if_true, hexec, update_plan_step,
          Option.getD_none]
        rw [e4]
        congr 1
        omega

/-- If the first `m` steps succeed, the failsafe allows each check, and step
`m` itself fails, the step loop returns `False` with `m` records, `m + 1`
dispatches, and the plan marked failed at `current_step = i + m`. -/
theorem execute_plan_loop_fail (env : ExecEnv) :
    ∀ (m : Nat) (rest : List α) (i : Nat) (p : PlanState) (records dispatched : Nat),
      m < rest.length →
      (∀ j, j ≤ m → env.can_proceed_at (i + j) = true) →
      (∀ j, j < m → env.planning_success (i + j) = true ∧
        env.operation_success (i + j) = true) →
      (env.planning_success (i + m) = false ∨ env.operation_success (i + m) = false) →
      (execute_plan_loop env rest i p records dispatched).records = records + m ∧
      (execute_plan_loop env rest i p records dispatched).dispatched =
        dispatched + (m + 1) ∧
      (execute_plan_loop env rest i p records dispatched).ok = false ∧
      (execute_plan_loop env rest i p records dispatched).plan =
        { current_step := i + m, status := PlanStatus.failed } := by
  intro m
  induction m with
  | zero =>
    intro rest i p records dispatched hm hcp hpre hfail
    match rest with
    | [] => simp at hm
    | x :: rest' =>
      have h0 : env.can_proceed_at i = true := by simpa using hcp 0 (Nat.zero_le 0)
      have hexec : execute_step env i records = (false, records) := by
        rcases hfail with hf | hf <;> simp only [Nat.add_zero] at hf
        · simp [execute_step, hf]
        · cases hps : env.planning_success i <;> simp [execute_step, hps, hf]
      refine ⟨?_, ?_, ?_, ?_⟩ <;>
        simp [execute_plan_loop, h0, hexec, update_plan_step]
  | succ m ih =>
    intro rest i p records dispatched hm hcp hpre hfail
    match rest with
    | [] => simp at hm
    | x :: rest' =>
      have h0 : env.can_proceed_at i = true := by simpa using hcp 0 (Nat.zero_le _)
      have hps : env.planning_success i = true := by
        simpa using (hpre 0 (Nat.succ_pos m)).1
      have hos : env.operation_success i = true := by
        simpa using (hpre 0 (Nat.succ_pos m)).2
      have hexec : execute_step env i records = (true, records + 1) := by
        simp [execute_step, hps, hos]
      have hm' : m < rest'.length := by simpa using Nat.lt_of_succ_lt_succ hm
      have hcp' : ∀ j, j ≤ m → env.can_proceed_at (i + 1 + j) = true := by
        intro j hj
        have := hcp (j + 1) (by omega)
        rwa [show i + (j + 1) = i + 1 + j by omega] at this
      have hpre' : ∀ j, j < m → env.planning_success (i + 1 + j) = true ∧
          env.operation_success (i + 1 + j) = true := by
        intro j hj
        have := hpre (j + 1) (by omega)
        rwa [show i + (j + 1) = i + 1 + j by omega] at this
      have hfail' : env.planning_success (i + 1 + m) = false ∨
          env.operation_success (i + 1 + m) = false := by
        rwa [show i + 1 + m = i + (m + 1) by omega]
      obtain ⟨e1, e2, e3, e4⟩ :=
        ih rest' (i + 1) (update_plan_step p (i + 1) none) (records + 1)
          (dispatched + 1) hm' hcp' hpre' hfail'
      simp only [update_plan_step, Option.getD_none] at e1 e2 e3 e4
      refine ⟨?_, ?_, ?_, ?_⟩
      · simp only [execute_plan_loop, h0, if_true, hexec, update_plan_step,
          Option.getD_none]
        rw [e1]
        omega
      · simp only [execute_plan_loop, h0, if_true, hexec, update_plan_step,
          Option.getD_none]
        rw [e2]
        omega
      · simp only [execute_plan_loop, h0, if_true, hexec, update_plan_step,
          Option.getD_none]
        exact e3
      · simp only [execute_plan_loop, h0, if_true, hexec, update_plan_step,
          Option.getD_none]
        rw [e4]
        congr 1
        omega

/-- Every plan state the step loop writes keeps `current_step` within the
number of remaining steps, and only the final completion write can carry
status `complete`. -/
theorem execute_plan_loop_invariant (env : ExecEnv) :
    ∀ (rest : List α) (i : Nat) (p : PlanState) (records dispatched : Nat),
      p.status ≠ PlanStatus.complete →
      ∀ s ∈ (execute_plan_loop env rest i p records dispatched).trace,
        s.current_step ≤ i + rest.length ∧
        (s.status = PlanStatus.complete → s.current_step = i + rest.length) := by
  intro rest
  induction rest with
  | nil =>
    intro i p records dispatched hp s hs
    simp [execute_plan_loop, update_plan_step] at hs
    subst hs
    exact ⟨by simp, fun _ => by simp⟩
  | cons x rest' ih =>
    intro i p records dispatched hp s hs
    by_cases h0 : env.can_proceed_at i = true
    · rcases hexec : execute_step env i records with ⟨ok, records1⟩
      cases ok
      · simp [execute_plan_loop, h0, hexec, update_plan_step] at hs
        subst hs
        refine ⟨by simp, fun hc => by simp at hc⟩
      · simp only [execute_plan_loop, h0, if_true, hexec] at hs
        simp only [List.mem_cons] at hs
        rcases hs with hs | hs
        · subst hs
          refine ⟨by simp [update_plan_step], fun hc => ?_⟩
          exfalso
          exact hp (by simpa [update_plan_step] using hc)
        · have := ih (i + 1) (update_plan_step p (i + 1) none) records1
            (dispatched + 1) (by simpa [update_plan_step] using hp) s hs
          constructor
          · have := this.1
            simp only [List.length_cons]
            omega
          · intro hc
            have := this.2 hc
            simp only [List.length_cons]
            omega
    · simp only [execute_plan_loop, h0, if_false, Bool.false_eq_true] at hs
      simp at hs

/-- C9: for every plan run by the coordinator, at every observed point
(each `Memory.update_plan_step` write) `current_step ≤ len(steps)`, and
status `complete` implies `current_step = len(steps)`; the invariant is
preserved by the start, per-step advance, failure and completion updates
(overseer.py, lines 201-247; memory.py, lines 195-202). -/
theorem plan_progress_invariant (env : ExecEnv) (steps : List α) (s : PlanState)
    (hs : s ∈ (execute_plan env steps).trace) :
    s.current_step ≤ steps.length ∧
    (s.status = PlanStatus.complete → s.current_step = steps.length) := by
  simp only [execute_plan, List.mem_cons] at hs
  rcases hs with hs | hs
  · subst hs
    exact ⟨by simp [update_plan_step], fun hc => by simp [update_plan_step] at hc⟩
  · have := execute_plan_loop_invariant env steps 0 _ 0 0
      (by simp [update_plan_step]) s hs
    simpa using this

/-- Witness for C9: the completion write of a successful one-step run. -/
theorem plan_progress_invariant_witness :
    ({ current_step := 1, status := PlanStatus.complete } : PlanState).current_step ≤
      ([()] : List Unit).length ∧
    (({ current_step := 1, status := PlanStatus.complete } : PlanState).status =
        PlanStatus.complete →
      ({ current_step := 1, status := PlanStatus.complete } : PlanState).current_step =
        ([()] : List Unit).length) :=
  plan_progress_invariant all_success_env [()]
    { current_step := 1, status := PlanStatus.complete } (by decide)

/-- C1 (amended): if the failsafe check denies progress before step `m + 1`
of a plan whose first `m` steps succeeded, `execute_plan` stops with exactly
`m` execution records, only the first `m` steps dispatched, and returns
`False` — but it leaves the plan status `executing` (no failure write is
made on this path); only the goal is marked failed by `run`. -/
theorem failsafe_halt_aborts (env : ExecEnv) (steps : List α) (m : Nat)
    (hm : m < steps.length)
    (hcp : ∀ j, j < m → env.can_proceed_at j = true)
    (hhalt : env.can_proceed_at m = false)
    (hstep : ∀ j, j < m → env.planning_success j = true ∧
      env.operation_success j = true) :
    (execute_plan env steps).records = m ∧
    (execute_plan env steps).dispatched = m ∧
    (execute_plan env steps).ok = false ∧
    (execute_plan env steps).plan =
      { current_step := m, status := PlanStatus.executing } ∧
    (run_goal env steps).1 = GoalStatus.failed := by
  have h := execute_plan_loop_halt env m steps 0
    (update_plan_step { current_step := 0, status := .pending } 0 (some .executing))
    0 0 rfl hm (by simpa using hcp) (by simpa using hhalt) (by simpa using hstep)
  obtain ⟨e1, e2, e3, e4⟩ := h
  simp only [update_plan_step, Option.getD_some] at e1 e2 e3 e4
  refine ⟨?_, ?_, ?_, ?_, ?_⟩
  · simp only [execute_plan, update_plan_step, Option.getD_some]
    simpa using e1
  · simp only [execute_plan, update_plan_step, Option.getD_some]
    simpa using e2
  · simp only [execute_plan, update_plan_step, Option.getD_some]
    simpa using e3
  · simp only [execute_plan, update_plan_step, Option.getD_some]
    simpa using e4
  · simp [run_goal, execute_plan, update_plan_step, e3]

/-- Witness for C1 (amended) at the claim's instance: a 5-step plan halted
before step 3. -/
theorem failsafe_halt_aborts_witness :
    (execute_plan halt_before_step3_env ([1, 2, 3, 4, 5] : List Nat)).records = 2 ∧
    (execute_plan halt_before_step3_env ([1, 2, 3, 4, 5] : List Nat)).dispatched = 2 ∧
    (execute_plan halt_before_step3_env ([1, 2, 3, 4, 5] : List Nat)).ok = false ∧
    (execute_plan halt_before_step3_env ([1, 2, 3, 4, 5] : List Nat)).plan =
      { current_step := 2, status := PlanStatus.executing } ∧
    (run_goal halt_before_step3_env ([1, 2, 3, 4, 5] : List Nat)).1 =
      GoalStatus.failed :=
  failsafe_halt_aborts halt_before_step3_env _ 2 (by decide) (by decide) (by decide)
    (by decide)

/-- C1 counterexample: in the claim's own instance (5-step plan, failsafe
false before step 3) exactly 2 records exist, but the plan's status is
`executing`, not `failed` — `execute_plan` returns without a failure write
when `can_proceed()` denies progress (overseer.py, lines 218-220). -/
theorem failsafe_halt_plan_not_failed :
    (execute_plan halt_before_step3_env ([1, 2, 3, 4, 5] : List Nat)).records = 2 ∧
    (execute_plan halt_before_step3_env ([1, 2, 3, 4, 5] : List Nat)).plan.status =
      PlanStatus.executing ∧
    ¬ (execute_plan halt_before_step3_env ([1, 2, 3, 4, 5] : List Nat)).plan.status =
      PlanStatus.failed := by
  decide

/-- C2 (amended): if step `m + 1` of a plan fails after its first `m` steps
succeeded, `execute_plan` stops immediately: the plan is marked failed, the
goal is marked failed, exactly `m + 1` steps were dispatched (none after
the failing one), and exactly `m` execution records exist — the failing
step appends no record (`_execute_step` returns before the history append,
overseer.py, lines 262-293). -/
theorem step_failure_aborts (env : ExecEnv) (steps : List α) (m : Nat)
    (hm : m < steps.length)
    (hcp : ∀ j, j ≤ m → env.can_proceed_at j = true)
    (hpre : ∀ j, j < m → env.planning_success j = true ∧
      env.operation_success j = true)
    (hfail : env.planning_success m = false ∨ env.operation_success m = false) :
    (execute_plan env steps).records = m ∧
    (execute_plan env steps).dispatched = m + 1 ∧
    (execute_plan env steps).ok = false ∧
    (execute_plan env steps).plan = { current_step := m, status := PlanStatus.failed } ∧
    (run_goal env steps).1 = GoalStatus.failed := by
  have h := execute_plan_loop_fail env m steps 0
    (update_plan_step { current_step := 0, status := .pending } 0 (some .executing))
    0 0 hm (by simpa using hcp) (by simpa using hpre) (by simpa using hfail)
  obtain ⟨e1, e2, e3, e4⟩ := h
  simp only [update_plan_step, Option.getD_some] at e1 e2 e3 e4
  refine ⟨?_, ?_, ?_, ?_, ?_⟩
  · simp only [execute_plan, update_plan_step, Option.getD_some]
    simpa using e1
  · simp only [execute_plan, update_plan_step, Option.getD_some]
    simpa using e2
  · simp only [execute_plan, update_plan_step, Option.getD_some]
    simpa using e3
  · simp only [execute_plan, update_plan_step, Option.getD_some]
    simpa using e4
  · simp [run_goal, execute_plan, update_plan_step, e3]

/-- Witness for C2 (amended) at the claim's instance: step 2 of a 4-step
plan fails. -/
theorem step_failure_aborts_witness :
    (execute_plan fail_step2_env ([1, 2, 3, 4] : List Nat)).records = 1 ∧
    (execute_plan fail_step2_env ([1, 2, 3, 4] : List Nat)).dispatched = 2 ∧
    (execute_plan fail_step2_env ([1, 2, 3, 4] : List Nat)).ok = false ∧
    (execute_plan fail_step2_env ([1, 2, 3, 4] : List Nat)).plan =
      { current_step := 1, status := PlanStatus.failed } ∧
    (run_goal fail_step2_env ([1, 2, 3, 4] : List Nat)).1 = GoalStatus.failed :=
  step_failure_aborts fail_step2_env _ 1 (by decide) (by decide) (by decide)
    (by decide)

/-- C2 counterexample: when step 2 of 4 returns `success=false`, the plan
and goal are marked failed and steps 3-4 are never dispatched, but exactly
1 ExecutionRecord exists, not 2: a failing step appends nothing to
`execution_history`. -/
theorem step_failure_records_counterexample :
    (execute_plan fail_step2_env ([1, 2, 3, 4] : List Nat)).plan.status =
      PlanStatus.failed ∧
    (run_goal fail_step2_env ([1, 2, 3, 4] : List Nat)).1 = GoalStatus.failed ∧
    (execute_plan fail_step2_env ([1, 2, 3, 4] : List Nat)).dispatched = 2 ∧
    (execute_plan fail_step2_env ([1, 2, 3, 4] : List Nat)).records = 1 ∧
    ¬ (execute_plan fail_step2_env ([1, 2, 3, 4] : List Nat)).records = 2 := by
  decide

/-- The finalization keeps the consumed-iterations count it is given. -/
theorem finalize_response_consumed (a : Bool) (b : Nat) (c : Bool) (cf consumed : Nat) :
    (finalize_response a b c cf consumed).outcomes_consumed = consumed := by
  unfold finalize_response
  split_ifs <;> rfl

/-- On the stream that always scores 0.5 with no issues, one loop entry from
iteration 0 advances to iteration 1 with one consecutive failure. -/
theorem low_env_step0 (idx : Nat) (prev : Bool) :
    create_plan_step low_score_no_issues_env false ⟨idx, 0, 0, prev⟩ =
      .next ⟨idx + 1, 1, 1, true⟩ := by
  norm_num [create_plan_step, low_score_no_issues_env]

/-- Second loop entry on the always-0.5 stream: iteration 2, two failures. -/
theorem low_env_step1 (idx : Nat) (prev : Bool) :
    create_plan_step low_score_no_issues_env false ⟨idx, 1, 1, prev⟩ =
      .next ⟨idx + 1, 2, 2, true⟩ := by
  norm_num [create_plan_step, low_score_no_issues_env]

/-- Third loop entry on the always-0.5 stream: the counter reaches 3 and the
non-debug reset sends the loop back to iteration 0 with zero failures. -/
theorem low_env_step2 (idx : Nat) (prev : Bool) :
    create_plan_step low_score_no_issues_env false ⟨idx, 2, 2, prev⟩ =
      .next ⟨idx + 1, 0, 0, true⟩ := by
  norm_num [create_plan_step, low_score_no_issues_env]

/-- On the always-0.5 stream the loop state cycles with period 3, so no
amount of fuel makes the loop return. -/
theorem low_env_loop_none :
    ∀ (fuel idx : Nat) (prev : Bool),
      create_plan_loop low_score_no_issues_env false fuel ⟨idx, 0, 0, prev⟩ = none ∧
      create_plan_loop low_score_no_issues_env false fuel ⟨idx, 1, 1, prev⟩ = none ∧
      create_plan_loop low_score_no_issues_env false fuel ⟨idx, 2, 2, prev⟩ = none := by
  intro fuel
  induction fuel with
  | zero => intro idx prev; exact ⟨rfl, rfl, rfl⟩
  | succ fuel ih =>
    intro idx prev
    refine ⟨?_, ?_, ?_⟩
    · simp only [create_plan_loop, low_env_step0]
      exact (ih (idx + 1) true).2.1
    · simp only [create_plan_loop, low_env_step1]
      exact (ih (idx + 1) true).2.2
    · simp only [create_plan_loop, low_env_step2]
      exact (ih (idx + 1) true).1

/-- C3 counterexample: on the planner/critic stream that always returns a
nonempty plan with score 0.5 and no issues, the consecutive-failures reset
(overseer_agent.py, lines 297-309) sends `iteration` back to 0 every three
iterations in non-debug mode, and `_create_plan` never terminates. -/
theorem create_plan_nonterminating :
    ¬ CreatePlanTerminates low_score_no_issues_env false := by
  rintro ⟨fuel, h⟩
  exact h ((low_env_loop_none fuel 0 false).1)

/-- C3 (amended): the approval loop is bounded by `maxIterations = 3`
provided the `consecutive_failures` counter never reaches 3 during the run
(no loop entry drives it to 3 at the reset check): the loop then returns a
response within 3 planner calls, and an unapproved return reports
`approval_iterations = 3`.  (Without that proviso the loop can run forever,
see the counterexample.)  `CreatePlanResult` fields are, in order:
`plan_approved`, `success`, `approval_iterations`, `consecutive_failures`,
`outcomes_consumed`. -/
theorem create_plan_terminates_when_failures_bounded (env : Nat → IterOutcome)
    (hsafe : ∀ (n : Nat) (st : ApprovalState),
      approval_trace env false n = some st → loop_entry_counter env st < 3) :
    ∃ r : CreatePlanResult, create_plan env false 4 = some (.result r) ∧
      r.outcomes_consumed ≤ 3 ∧
      (r.plan_approved = false → r.approval_iterations = 3) := by
  suffices h : ∀ (n m : Nat) (st : ApprovalState),
      approval_trace env false m = some st → st.iteration + n = 3 →
      ∃ r : CreatePlanResult,
        create_plan_loop env false (n + 1) st = some (.result r) ∧
        r.outcomes_consumed ≤ st.idx + n ∧
        (r.plan_approved = false → r.approval_iterations = 3) by
    obtain ⟨r, hr, hc, ha⟩ := h 3 0 _ rfl rfl
    exact ⟨r, hr, by simpa using hc, ha⟩
  intro n
  induction n with
  | zero =>
    intro m st hm h3
    have hi : st.iteration = 3 := by omega
    refine ⟨⟨false, st.prev_success, 3, st.consecutive_failures, st.idx⟩, ?_,
      by show st.idx ≤ st.idx + 0; omega, fun _ => rfl⟩
    have hstep : create_plan_step env false st = .done (.result
        (finalize_response false st.iteration st.prev_success
          st.consecutive_failures st.idx)) := by
      unfold create_plan_step
      rw [if_neg (by omega)]
    simp only [create_plan_loop, hstep]
    rw [hi]
    norm_num [finalize_response]
  | succ n ih =>
    intro m st hm h3
    have hlt : st.iteration < 3 := by omega
    have hcnt := hsafe m st hm
    unfold loop_entry_counter at hcnt
    rw [if_pos hlt] at hcnt
    by_cases hp : (env st.idx).plan.isEmpty = true
    · simp only [hp, if_true] at hcnt
      have hstep : create_plan_step env false st =
          .next ⟨st.idx + 1, st.iteration + 1, st.consecutive_failures + 1, false⟩ := by
        unfold create_plan_step
        rw [if_pos hlt]
        simp [hp]
      have hm1 : approval_trace env false (m + 1) =
          some ⟨st.idx + 1, st.iteration + 1, st.consecutive_failures + 1, false⟩ := by
        simp [approval_trace, hm, hstep]
      obtain ⟨r, hr, hc, ha⟩ := ih (m + 1) _ hm1
        (by show st.iteration + 1 + n = 3; omega)
      refine ⟨r, ?_, ?_, ha⟩
      · simp only [create_plan_loop, hstep]
        exact hr
      · have h2 : r.outcomes_consumed ≤ st.idx + 1 + n := hc
        omega
    · simp only [hp, Bool.false_eq_true, if_false] at hcnt
      match hcv : (env st.idx).critic with
      | some v =>
        rw [hcv] at hcnt
        by_cases hsc : v.overall_score ≥ 4 / 5
        · by_cases hit : st.iteration + 1 ≥ 3
          · refine ⟨⟨false, true, st.iteration + 1, 0, st.idx + 1⟩, ?_,
              by show st.idx + 1 ≤ st.idx + (n + 1); omega,
              fun _ => by show st.iteration + 1 = 3; omega⟩
            have hstep : create_plan_step env false st = .done (.result
                (finalize_response true (st.iteration + 1) true 0 (st.idx + 1))) := by
              unfold create_plan_step
              rw [if_pos hlt]
              simp [hp, hcv, hsc]
            simp only [create_plan_loop, hstep]
            norm_num [finalize_response, hit]
          · refine ⟨⟨true, true, st.iteration + 1, 0, st.idx + 1⟩, ?_,
              by show st.idx + 1 ≤ st.idx + (n + 1); omega,
              fun hfalse => absurd hfalse (by simp)⟩
            have hstep : create_plan_step env false st = .done (.result
                (finalize_response true (st.iteration + 1) true 0 (st.idx + 1))) := by
              unfold create_plan_step
              rw [if_pos hlt]
              simp [hp, hcv, hsc]
            simp only [create_plan_loop, hstep]
            norm_num [finalize_response, hit]
        · simp only [hsc, if_false] at hcnt
          by_cases hii : (!v.issues_found.isEmpty && (env st.idx).improve_ok) = true
          · simp only [hii, if_true] at hcnt
            have hcf : ¬ st.consecutive_failures ≥ 3 := by omega
            have hstep : create_plan_step env false st =
                .next ⟨st.idx + 1, st.iteration + 1, st.consecutive_failures,
                  true⟩ := by
              unfold create_plan_step
              rw [if_pos hlt]
              simp [hp, hcv, hsc, hii, hcf]
            have hm1 : approval_trace env false (m + 1) =
                some ⟨st.idx + 1, st.iteration + 1, st.consecutive_failures,
                  true⟩ := by
              simp [approval_trace, hm, hstep]
            obtain ⟨r, hr, hc, ha⟩ := ih (m + 1) _ hm1
              (by show st.iteration + 1 + n = 3; omega)
            refine ⟨r, ?_, ?_, ha⟩
            · simp only [create_plan_loop, hstep]
              exact hr
            · have h2 : r.outcomes_consumed ≤ st.idx + 1 + n := hc
              omega
          · simp only [hii, Bool.false_eq_true, if_false] at hcnt
            have hcf : ¬ st.consecutive_failures + 1 ≥ 3 := by omega
            have hstep : create_plan_step env false st =
                .next ⟨st.idx + 1, st.iteration + 1, st.consecutive_failures + 1,
                  true⟩ := by
              unfold create_plan_step
              rw [if_pos hlt]
              simp [hp, hcv, hsc, hii, hcf]
            have hm1 : approval_trace env false (m + 1) =
                some ⟨st.idx + 1, st.iteration + 1, st.consecutive_failures + 1,
                  true⟩ := by
              simp [approval_trace, hm, hstep]
            obtain ⟨r, hr, hc, ha⟩ := ih (m + 1) _ hm1
              (by show st.iteration + 1 + n = 3; omega)
            refine ⟨r, ?_, ?_, ha⟩
            · simp only [create_plan_loop, hstep]
              exact hr
            · have h2 : r.outcomes_consumed ≤ st.idx + 1 + n := hc
              omega
      | none =>
        simp only [hcv] at hcnt
        have hcf : ¬ st.consecutive_failures + 1 ≥ 3 := by omega
        have hstep : create_plan_step env false st =
            .next ⟨st.idx + 1, st.iteration + 1, st.consecutive_failures + 1,
              true⟩ := by
          unfold create_plan_step
          rw [if_pos hlt]
          simp [hp, hcv, hcf]
        have hm1 : approval_trace env false (m + 1) =
            some ⟨st.idx + 1, st.iteration + 1, st.consecutive_failures + 1,
              true⟩ := by
          simp [approval_trace, hm, hstep]
        obtain ⟨r, hr, hc, ha⟩ := ih (m + 1) _ hm1
          (by show st.iteration + 1 + n = 3; omega)
        refine ⟨r, ?_, ?_, ha⟩
        · simp only [create_plan_loop, hstep]
          exact hr
        · have h2 : r.outcomes_consumed ≤ st.idx + 1 + n := hc
          omega

/-- Witness for C3 (amended): on the stream whose first iteration scores 0.5
with no issues (counter reaches 1) and whose later iterations score exactly
0.8, the counter never reaches 3 and the loop terminates within the bound. -/
theorem create_plan_terminates_witness :
    ∃ r : CreatePlanResult,
      create_plan late_approval_one_failure_env false 4 = some (.result r) ∧
      r.outcomes_consumed ≤ 3 ∧
      (r.plan_approved = false → r.approval_iterations = 3) := by
  have hstep0 : create_plan_step late_approval_one_failure_env false
      ⟨0, 0, 0, false⟩ = .next ⟨1, 1, 1, true⟩ := by
    norm_num [create_plan_step, late_approval_one_failure_env]
  have hstep1 : create_plan_step late_approval_one_failure_env false
      ⟨1, 1, 1, true⟩ = .done (.result (finalize_response true 2 true 0 2)) := by
    norm_num [create_plan_step, late_approval_one_failure_env]
  have htr1 : approval_trace late_approval_one_failure_env false 1 =
      some ⟨1, 1, 1, true⟩ := by
    simp [approval_trace, hstep0]
  have hnone_succ : ∀ m, approval_trace late_approval_one_failure_env false m = none →
      approval_trace late_approval_one_failure_env false (m + 1) = none := by
    intro m hm
    show (match approval_trace late_approval_one_failure_env false m with
          | some st =>
            match create_plan_step late_approval_one_failure_env false st with
            | .next st1 => some st1
            | .done _ => none
          | none => none) = none
    rw [hm]
  have h2 : approval_trace late_approval_one_failure_env false 2 = none := by
    show (match approval_trace late_approval_one_failure_env false 1 with
          | some st =>
            match create_plan_step late_approval_one_failure_env false st with
            | .next st1 => some st1
            | .done _ => none
          | none => none) = none
    rw [htr1]
    simp only [hstep1]
  have htrnone : ∀ n, approval_trace late_approval_one_failure_env false
      (n + 2) = none := by
    intro n
    induction n with
    | zero => exact h2
    | succ n ihn => exact hnone_succ (n + 2) ihn
  refine create_plan_terminates_when_failures_bounded
    late_approval_one_failure_env ?_
  intro n st h
  match n with
  | 0 =>
    simp only [approval_trace, Option.some.injEq] at h
    rw [← h]
    norm_num [loop_entry_counter, late_approval_one_failure_env]
  | 1 =>
    rw [htr1, Option.some.injEq] at h
    rw [← h]
    norm_num [loop_entry_counter, late_approval_one_failure_env]
  | n + 2 =>
    rw [htrnone n] at h
    cases h

/-- In non-debug mode, one loop entry either advances the planner-call index
by one, or returns an approval for the current iteration (which consumed one
more planner call), or — only when the loop condition already failed —
returns the finalized response without a further planner call. -/
theorem create_plan_step_shape (env : Nat → IterOutcome) (st : ApprovalState) :
    (∃ st1, create_plan_step env false st = .next st1 ∧ st1.idx = st.idx + 1 ∧
      st1.iteration ≤ 3) ∨
    (∃ r, create_plan_step env false st = .done (.result r) ∧
      (r.outcomes_consumed = st.idx + 1 ∨
        (¬ st.iteration < 3 ∧ r.outcomes_consumed = st.idx))) := by
  unfold create_plan_step
  by_cases h3 : st.iteration < 3
  · simp only [h3, if_true]
    by_cases hp : (env st.idx).plan.isEmpty = true
    · simp only [hp, if_true]
      exact Or.inl ⟨_, rfl, rfl, (by omega : st.iteration + 1 ≤ 3)⟩
    · simp only [hp, if_false]
      match hcv : (env st.idx).critic with
      | some v =>
        by_cases hsc : v.overall_score ≥ 4 / 5
        · simp only [hsc, if_true]
          exact Or.inr ⟨_, rfl, Or.inl (finalize_response_consumed _ _ _ _ _)⟩
        · simp only [hsc, if_false]
          by_cases hii : (!v.issues_found.isEmpty && (env st.idx).improve_ok) = true
          · simp only [hii, if_true]
            by_cases hcf : st.consecutive_failures ≥ 3
            · simp only [hcf, if_true, Bool.false_eq_true, if_false]
              exact Or.inl ⟨_, rfl, rfl, (by omega : (0 : Nat) ≤ 3)⟩
            · simp only [hcf, if_false]
              exact Or.inl ⟨_, rfl, rfl, (by omega : st.iteration + 1 ≤ 3)⟩
          · simp only [hii, Bool.false_eq_true, if_false]
            by_cases hcf : st.consecutive_failures + 1 ≥ 3
            · simp only [hcf, if_true, Bool.false_eq_true, if_false]
              exact Or.inl ⟨_, rfl, rfl, (by omega : (0 : Nat) ≤ 3)⟩
            · simp only [hcf, if_false]
              exact Or.inl ⟨_, rfl, rfl, (by omega : st.iteration + 1 ≤ 3)⟩
      | none =>
        by_cases hcf : st.consecutive_failures + 1 ≥ 3
        · simp only [hcf, if_true, Bool.false_eq_true, if_false]
          exact Or.inl ⟨_, rfl, rfl, (by omega : (0 : Nat) ≤ 3)⟩
        · simp only [hcf, if_false]
          exact Or.inl ⟨_, rfl, rfl, (by omega : st.iteration + 1 ≤ 3)⟩
  · simp only [h3, if_false]
    exact Or.inr ⟨_, rfl, Or.inr ⟨not_false, finalize_response_consumed _ _ _ _ _⟩⟩

/-- Any response the approval loop returns consumed at least as many planner
calls as the state it started from. -/
theorem create_plan_loop_consumed_ge (env : Nat → IterOutcome) :
    ∀ (fuel : Nat) (st : ApprovalState) (r : CreatePlanResult),
      create_plan_loop env false fuel st = some (.result r) →
      r.outcomes_consumed ≥ st.idx := by
  intro fuel
  induction fuel with
  | zero => intro st r h; cases h
  | succ fuel ih =>
    intro st r h
    simp only [create_plan_loop] at h
    rcases create_plan_step_shape env st with ⟨st1, hstep, hidx, _⟩ |
      ⟨r0, hstep, hc⟩
    · rw [hstep] at h
      have := ih st1 r h
      omega
    · rw [hstep] at h
      simp only [Option.some.injEq, CreatePlanOutcome.result.injEq] at h
      subst h
      rcases hc with hc | ⟨_, hc⟩ <;> omega

/-- A loop entry whose `while` condition still holds consumes at least one
further planner call before any response is returned. -/
theorem create_plan_loop_consumed_succ (env : Nat → IterOutcome) (fuel : Nat)
    (st : ApprovalState) (r : CreatePlanResult) (h3 : st.iteration < 3)
    (h : create_plan_loop env false fuel st = some (.result r)) :
    r.outcomes_consumed ≥ st.idx + 1 := by
  match fuel with
  | 0 => cases h
  | fuel + 1 =>
    simp only [create_plan_loop] at h
    rcases create_plan_step_shape env st with ⟨st1, hstep, hidx, _⟩ |
      ⟨r0, hstep, hc⟩
    · rw [hstep] at h
      have := create_plan_loop_consumed_ge env fuel st1 r h
      omega
    · rw [hstep] at h
      simp only [Option.some.injEq, CreatePlanOutcome.result.injEq] at h
      subst h
      rcases hc with hc | ⟨hn, _⟩
      · omega
      · exact absurd h3 hn

/-- C8 (amended): the approval comparison is inclusive (`>=`): a critic
score equal to the 0.8 threshold takes the approval branch, stops the loop
after that iteration, and resets `consecutive_failures` to 0; the returned
response reports `plan_approved = true` when this happens on the first
iteration (an approval on the 3rd iteration is overwritten to unapproved by
the post-loop finalization, see the counterexample).  A score strictly
below 0.8 never approves at that iteration: every returned response
consumed further planner calls.  `CreatePlanResult` fields are, in order:
`plan_approved`, `success`, `approval_iterations`, `consecutive_failures`,
`outcomes_consumed`. -/
theorem approval_threshold_inclusive (env : Nat → IterOutcome) (v : CriticVerdict)
    (hplan : (env 0).plan.isEmpty = false)
    (hcritic : (env 0).critic = some v) :
    (v.overall_score ≥ 4 / 5 →
      ∀ fuel : Nat, create_plan env false (fuel + 1) =
        some (.result ⟨true, true, 1, 0, 1⟩)) ∧
    (v.overall_score < 4 / 5 →
      ∀ (fuel : Nat) (r : CreatePlanResult),
        create_plan env false fuel = some (.result r) → r.outcomes_consumed ≠ 1) := by
  constructor
  · intro hsc fuel
    have hstep : create_plan_step env false ⟨0, 0, 0, false⟩ =
        .done (.result (finalize_response true 1 true 0 1)) := by
      simp [create_plan_step, hplan, hcritic, hsc]
    simp only [create_plan, create_plan_loop, hstep]
    simp [finalize_response]
  · intro hsc fuel r h
    match fuel with
    | 0 => cases h
    | fuel + 1 =>
      have hsc1 : ¬ v.overall_score ≥ 4 / 5 := not_le.mpr hsc
      by_cases hii : (!v.issues_found.isEmpty && (env 0).improve_ok) = true
      · have hstep : create_plan_step env false ⟨0, 0, 0, false⟩ =
            .next ⟨1, 1, 0, true⟩ := by
          simp [create_plan_step, hplan, hcritic, hsc1, hii]
        simp only [create_plan, create_plan_loop, hstep] at h
        have h2 : r.outcomes_consumed ≥ 2 :=
          create_plan_loop_consumed_succ env fuel ⟨1, 1, 0, true⟩ r (by decide) h
        omega
      · have hstep : create_plan_step env false ⟨0, 0, 0, false⟩ =
            .next ⟨1, 1, 1, true⟩ := by
          simp [create_plan_step, hplan, hcritic, hsc1, hii]
        simp only [create_plan, create_plan_loop, hstep] at h
        have h2 : r.outcomes_consumed ≥ 2 :=
          create_plan_loop_consumed_succ env fuel ⟨1, 1, 1, true⟩ r (by decide) h
        omega

/-- Witness for C8 (amended): a critic score of exactly 0.8 on the first
iteration yields an approved response after one iteration with the failure
counter reset to 0. -/
theorem approval_threshold_inclusive_witness :
    create_plan exact_approval_env false 1 =
      some (.result ⟨true, true, 1, 0, 1⟩) :=
  (approval_threshold_inclusive exact_approval_env ⟨4 / 5, []⟩ rfl rfl).1
    (by norm_num) 0

/-- C8 counterexample: when the score reaches exactly 0.8 only on the 3rd
iteration, the approval branch fires (the loop stops after 3 planner calls
with `consecutive_failures = 0`), yet the returned response has
`plan_approved = false`: the post-loop finalization (overseer_agent.py,
lines 311-314) overwrites the in-loop approval because
`iteration >= max_iterations`.  Fields: `plan_approved = false`,
`success = true`, `approval_iterations = 3`, `consecutive_failures = 0`,
`outcomes_consumed = 3`. -/
theorem approval_on_last_iteration_unapproved :
    create_plan late_approval_env false 10 =
      some (.result ⟨false, true, 3, 0, 3⟩) := by
  have s0 : create_plan_step late_approval_env false ⟨0, 0, 0, false⟩ =
      .next ⟨1, 1, 1, true⟩ := by
    norm_num [create_plan_step, late_approval_env]
  have s1 : create_plan_step late_approval_env false ⟨1, 1, 1, true⟩ =
      .next ⟨2, 2, 2, true⟩ := by
    norm_num [create_plan_step, late_approval_env]
  have s2 : create_plan_step late_approval_env false ⟨2, 2, 2, true⟩ =
      .done (.result (finalize_response true 3 true 0 3)) := by
    norm_num [create_plan_step, late_approval_env]
  simp only [create_plan, create_plan_loop, s0, s1, s2]
  norm_num [finalize_response]


/-- Unfolding lemma for `_clean_plan_steps`: the cleaned list, or the default
plan when nothing survived. -/
theorem clean_plan_steps_eq (steps : List StepIn) :
    clean_plan_steps steps =
      if (clean_plan_steps_aux 1 steps).isEmpty = true then default_plan_steps
      else clean_plan_steps_aux 1 steps := rfl

/-- A dict step is always cleaned into one of the three dispatchable roles. -/
theorem clean_dict_step_agent (i : Nat) (d : StepDict) :
    (clean_dict_step i d).next_agent = "perception" ∨
    (clean_dict_step i d).next_agent = "operator" ∨
    (clean_dict_step i d).next_agent = "overseer" := by
  unfold clean_dict_step
  dsimp only
  split
  case isTrue hcond =>
    simp only [Bool.or_eq_true, beq_iff_eq] at hcond
    tauto
  case isFalse _ => left; rfl

/-- Every record the cleaning loop emits has a dispatchable role. -/
theorem clean_aux_agents :
    ∀ (steps : List StepIn) (i : Nat) (r : StepRec),
      r ∈ clean_plan_steps_aux i steps →
      r.next_agent = "perception" ∨ r.next_agent = "operator" ∨
        r.next_agent = "overseer" := by
  intro steps
  induction steps with
  | nil => intro i r h; cases h
  | cons st rest ih =>
    intro i r h
    cases st with
    | strStep s =>
      simp only [clean_plan_steps_aux] at h
      by_cases he : (pyStrip s).isEmpty
      · rw [if_pos he] at h
        exact ih _ r h
      · rw [if_neg he] at h
        rcases List.mem_cons.mp h with h | h
        · subst h; left; rfl
        · exact ih _ r h
    | dictStep d =>
      simp only [clean_plan_steps_aux] at h
      rcases List.mem_cons.mp h with h | h
      · subst h; exact clean_dict_step_agent i d
      · exact ih _ r h
    | otherStep =>
      simp only [clean_plan_steps_aux] at h
      exact ih _ r h

/-- Every record `_clean_plan_steps` returns has a dispatchable role (the
fallback plan does too). -/
theorem clean_plan_steps_agents (steps : List StepIn) (r : StepRec)
    (h : r ∈ clean_plan_steps steps) :
    r.next_agent = "perception" ∨ r.next_agent = "operator" ∨
      r.next_agent = "overseer" := by
  simp only [clean_plan_steps] at h
  split at h
  · revert h
    revert r
    decide
  · exact clean_aux_agents steps 1 r h

/-- The role's safe default action is in the role's capability set. -/
theorem default_action_allowed (ag : String)
    (h : ag = "perception" ∨ ag = "operator" ∨ ag = "overseer") :
    (capability_actions ag).contains (default_action ag) = true := by
  rcases h with h | h | h <;> subst h <;> decide

/-- The normalized action is always in the role's capability set. -/
theorem enforce_action_allowed (ag act : String)
    (h : ag = "perception" ∨ ag = "operator" ∨ ag = "overseer") :
    (capability_actions ag).contains (enforce_action ag act) = true := by
  unfold enforce_action
  by_cases he : act.isEmpty = true
  · simp only [he, if_true]
    split
    · rename_i h1
      exact h1
    · exact default_action_allowed ag h
  · simp only [he, Bool.false_eq_true, if_false]
    split
    · rename_i h1
      exact h1
    · exact default_action_allowed ag h

/-- `enforce_step_action` rewrites only the action field. -/
theorem enforce_step_action_fields (s : StepRec) :
    (enforce_step_action s).next_agent = s.next_agent ∧
    (enforce_step_action s).description = s.description ∧
    (enforce_step_action s).coordinates = s.coordinates :=
  ⟨rfl, rfl, rfl⟩

/-- Every output element of the enforcement loop is the synthetic
precondition step or a normalized input step. -/
theorem mem_enforce_aux_shape :
    ∀ (l : List StepRec) (r : StepRec), r ∈ enforce_aux l →
      r = precondition_step ∨ ∃ s ∈ l, r = enforce_step_action s := by
  intro l
  induction l with
  | nil => intro r h; cases h
  | cons s rest ih =>
    intro r h
    simp only [enforce_aux] at h
    by_cases htr : (needs_coordinates (enforce_step_action s) &&
        (enforce_step_action s).coordinates.isNone) = true
    · rw [if_pos htr] at h
      rcases List.mem_cons.mp h with h | h
      · exact Or.inl h
      · rcases List.mem_cons.mp h with h | h
        · exact Or.inr ⟨s, List.mem_cons_self s rest, h⟩
        · rcases ih r h with h | ⟨s1, hs1, he⟩
          · exact Or.inl h
          · exact Or.inr ⟨s1, List.mem_cons_of_mem s hs1, he⟩
    · rw [if_neg htr] at h
      rcases List.mem_cons.mp h with h | h
      · exact Or.inr ⟨s, List.mem_cons_self s rest, h⟩
      · rcases ih r h with h | ⟨s1, hs1, he⟩
        · exact Or.inl h
        · exact Or.inr ⟨s1, List.mem_cons_of_mem s hs1, he⟩

/-- A normalized input step appears in the enforcement output. -/
theorem enforce_step_mem :
    ∀ (l : List StepRec) (s : StepRec), s ∈ l →
      enforce_step_action s ∈ enforce_aux l := by
  intro l
  induction l with
  | nil => intro s h; cases h
  | cons x rest ih =>
    intro s h
    simp only [enforce_aux]
    rcases List.mem_cons.mp h with h | h
    · subst h
      split
      · exact List.mem_cons_of_mem _ (List.mem_cons_self _ _)
      · exact List.mem_cons_self _ _
    · split
      · exact List.mem_cons_of_mem _ (List.mem_cons_of_mem _ (ih s h))
      · exact List.mem_cons_of_mem _ (ih s h)

/-- Every coordinate-needing step the enforcement loop emits is immediately
preceded by the synthetic perception identify step, whatever precedes the
output. -/
theorem pre_guarded_enforce_aux :
    ∀ (l : List StepRec) (prev : Option StepRec),
      pre_guarded prev (enforce_aux l) = true := by
  intro l
  induction l with
  | nil => intro prev; rfl
  | cons s rest ih =>
    intro prev
    simp only [enforce_aux]
    by_cases htr : (needs_coordinates (enforce_step_action s) &&
        (enforce_step_action s).coordinates.isNone) = true
    · rw [if_pos htr]
      have hpre : (needs_coordinates precondition_step &&
          precondition_step.coordinates.isNone) = false := by decide
      have hident : opt_identify (some precondition_step) = true := by decide
      simp only [pre_guarded, requires_missing_coordinates, hpre, htr, hident,
        Bool.false_eq_true, if_false, if_true, Bool.true_and, eq_self_iff_true]
      simpa using ih (some (enforce_step_action s))
    · rw [if_neg htr]
      have htr1 : (needs_coordinates (enforce_step_action s) &&
          (enforce_step_action s).coordinates.isNone) = false := by
        rwa [Bool.not_eq_true] at htr
      simp only [pre_guarded, requires_missing_coordinates, htr1,
        Bool.false_eq_true, if_false, Bool.true_and]
      exact ih (some (enforce_step_action s))

/-- Renumbering rewrites only ids, so the precondition-guard check is
unaffected by it. -/
theorem pre_guarded_renumber_from :
    ∀ (l : List StepRec) (k : Nat) (a b : Option StepRec),
      opt_identify a = opt_identify b →
      pre_guarded a (renumber_from k l) = pre_guarded b l := by
  intro l
  induction l with
  | nil => intro k a b _; rfl
  | cons s rest ih =>
    intro k a b h
    simp only [renumber_from, pre_guarded]
    rw [show requires_missing_coordinates { s with id := some (Int.ofNat k) } =
        requires_missing_coordinates s from rfl]
    rw [h]
    rw [ih (k + 1) (some { s with id := some (Int.ofNat k) }) (some s) rfl]

/-- Renumbering preserves the list length. -/
theorem renumber_from_length :
    ∀ (l : List StepRec) (k : Nat), (renumber_from k l).length = l.length := by
  intro l
  induction l with
  | nil => intro k; rfl
  | cons s rest ih => intro k; simp [renumber_from, ih]

/-- After renumbering from `k`, the element at offset `i` has id `k + i`. -/
theorem renumber_from_id :
    ∀ (l : List StepRec) (k i : Nat) (h : i < (renumber_from k l).length),
      ((renumber_from k l).get ⟨i, h⟩).id = some (Int.ofNat (k + i)) := by
  intro l
  induction l with
  | nil => intro k i h; simp [renumber_from] at h
  | cons s rest ih =>
    intro k i h
    cases i with
    | zero => simp [renumber_from]
    | succ i =>
      simp only [renumber_from, List.get_cons_succ]
      rw [show k + (i + 1) = k + 1 + i from by omega]
      exact ih (k + 1) i _

/-- Every renumbered element keeps its descriptive fields. -/
theorem mem_renumber_from_shape :
    ∀ (l : List StepRec) (k : Nat) (r : StepRec), r ∈ renumber_from k l →
      ∃ s ∈ l, r.description = s.description ∧ r.next_agent = s.next_agent ∧
        r.action = s.action := by
  intro l
  induction l with
  | nil => intro k r h; cases h
  | cons s rest ih =>
    intro k r h
    simp only [renumber_from] at h
    rcases List.mem_cons.mp h with h | h
    · subst h
      exact ⟨s, List.mem_cons_self s rest, rfl, rfl, rfl⟩
    · obtain ⟨s1, hs1, he⟩ := ih (k + 1) r h
      exact ⟨s1, List.mem_cons_of_mem s hs1, he⟩

/-- Every element survives renumbering with its descriptive fields. -/
theorem mem_renumber_from :
    ∀ (l : List StepRec) (k : Nat) (s : StepRec), s ∈ l →
      ∃ r ∈ renumber_from k l, r.description = s.description ∧
        r.next_agent = s.next_agent ∧ r.action = s.action := by
  intro l
  induction l with
  | nil => intro k s h; cases h
  | cons x rest ih =>
    intro k s h
    rcases List.mem_cons.mp h with h | h
    · subst h
      exact ⟨{ s with id := some (Int.ofNat k) },
        List.mem_cons_self _ _, rfl, rfl, rfl⟩
    · obtain ⟨r, hr, he⟩ := ih (k + 1) s h
      exact ⟨r, List.mem_cons_of_mem _ hr, he⟩

/-- A non-empty string step is cleaned into a perception/analyze record with
the stripped text as description. -/
theorem clean_aux_str_mem :
    ∀ (steps : List StepIn) (i : Nat) (s : String), StepIn.strStep s ∈ steps →
      (pyStrip s).isEmpty = false →
      ∃ r ∈ clean_plan_steps_aux i steps, r.description = pyStrip s ∧
        r.next_agent = "perception" ∧ r.action = "analyze" := by
  intro steps
  induction steps with
  | nil => intro i s h; cases h
  | cons st rest ih =>
    intro i s h hne
    rcases List.mem_cons.mp h with heq | hmem
    · subst heq
      simp only [clean_plan_steps_aux, hne, Bool.false_eq_true, if_false]
      exact ⟨clean_str_step i (pyStrip s), List.mem_cons_self _ _, rfl, rfl, rfl⟩
    · cases st with
      | strStep t =>
        simp only [clean_plan_steps_aux]
        by_cases he : (pyStrip t).isEmpty
        · rw [if_pos he]
          exact ih (i + 1) s hmem hne
        · rw [if_neg he]
          obtain ⟨r, hr, hp⟩ := ih (i + 1) s hmem hne
          exact ⟨r, List.mem_cons_of_mem _ hr, hp⟩
      | dictStep d =>
        simp only [clean_plan_steps_aux]
        obtain ⟨r, hr, hp⟩ := ih (i + 1) s hmem hne
        exact ⟨r, List.mem_cons_of_mem _ hr, hp⟩
      | otherStep =>
        simp only [clean_plan_steps_aux]
        exact ih (i + 1) s hmem hne

/-- When every entry is kept (a dict or a non-empty string), cleaning
preserves the number of steps. -/
theorem clean_aux_length :
    ∀ (steps : List StepIn) (i : Nat), (∀ st ∈ steps, step_kept st = true) →
      (clean_plan_steps_aux i steps).length = steps.length := by
  intro steps
  induction steps with
  | nil => intro i _; rfl
  | cons st rest ih =>
    intro i hk
    have hrest : ∀ st1 ∈ rest, step_kept st1 = true := fun st1 h1 =>
      hk st1 (List.mem_cons_of_mem st h1)
    cases st with
    | strStep s =>
      have hs := hk (.strStep s) (List.mem_cons_self _ _)
      simp only [step_kept, Bool.not_eq_true'] at hs
      simp [clean_plan_steps_aux, hs, ih (i + 1) hrest]
    | dictStep d =>
      simp [clean_plan_steps_aux, ih (i + 1) hrest]
    | otherStep =>
      have hs := hk .otherStep (List.mem_cons_self _ _)
      simp [step_kept] at hs

/-- C7 (amended): the normalization pipeline (`_clean_plan_steps` then
`_enforce_capabilities_and_preconditions`) never rejects a dict step or a
non-empty string step (empty/whitespace-only strings and non-str non-dict
entries are dropped, and if nothing survives a default 4-step plan is
substituted), and its output satisfies: every step's role is one of
perception/operator/overseer with its action inside that role's fixed
capability set (out-of-set actions having been coerced to the role's safe
default); every operator step requiring screen coordinates that lacks them
is immediately preceded by a synthetic perception identify precondition
step; the ids of the output are renumbered sequentially 1..n; and every
non-empty string step yields a perception/analyze record carrying its
stripped text. -/
theorem normalize_plan_steps_spec (steps : List StepIn) :
    (∀ r ∈ normalize_plan_steps steps,
      (r.next_agent = "perception" ∨ r.next_agent = "operator" ∨
        r.next_agent = "overseer") ∧
      (capability_actions r.next_agent).contains r.action = true) ∧
    pre_guarded none (normalize_plan_steps steps) = true ∧
    (∀ (i : Nat) (h : i < (normalize_plan_steps steps).length),
      ((normalize_plan_steps steps).get ⟨i, h⟩).id = some (Int.ofNat (i + 1))) ∧
    (∀ s : String, StepIn.strStep s ∈ steps → (pyStrip s).isEmpty = false →
      ∃ r ∈ normalize_plan_steps steps, r.description = pyStrip s ∧
        r.next_agent = "perception" ∧ r.action = "analyze") ∧
    (steps ≠ [] → (∀ st ∈ steps, step_kept st = true) →
      (clean_plan_steps steps).length = steps.length) := by
  refine ⟨?_, ?_, ?_, ?_, ?_⟩
  · intro r hr
    obtain ⟨s0, hs0, hd, hna, hact⟩ :=
      mem_renumber_from_shape (enforce_aux (clean_plan_steps steps)) 1 r hr
    rcases mem_enforce_aux_shape _ s0 hs0 with hpre | ⟨s1, hs1, he⟩
    · subst hpre
      rw [hna, hact]
      exact ⟨Or.inl rfl, by decide⟩
    · have htrio := clean_plan_steps_agents steps s1 hs1
      subst he
      rw [hna, hact]
      rw [(enforce_step_action_fields s1).1]
      exact ⟨htrio, enforce_action_allowed s1.next_agent s1.action htrio⟩
  · unfold normalize_plan_steps enforce_capabilities_and_preconditions
    rw [pre_guarded_renumber_from _ 1 none none rfl]
    exact pre_guarded_enforce_aux _ none
  · intro i h
    unfold normalize_plan_steps enforce_capabilities_and_preconditions at h ⊢
    rw [renumber_from_id, Nat.add_comm 1 i]
  · intro s hs hne
    have hclean : clean_plan_steps_aux 1 steps = clean_plan_steps steps := by
      rw [clean_plan_steps_eq]
      split
      case isTrue hempty =>
        obtain ⟨r, hr, _⟩ := clean_aux_str_mem steps 1 s hs hne
        rw [List.isEmpty_iff] at hempty
        rw [hempty] at hr
        cases hr
      case isFalse _ => rfl
    obtain ⟨r, hr, hd, hna, hact⟩ := clean_aux_str_mem steps 1 s hs hne
    rw [hclean] at hr
    have hsmem := enforce_step_mem _ r hr
    have hfix : enforce_step_action r = r := by
      have : enforce_action r.next_agent r.action = r.action := by
        rw [hna, hact]
        decide
      unfold enforce_step_action
      rw [this]
    rw [hfix] at hsmem
    obtain ⟨r1, hr1, hd1, hna1, hact1⟩ :=
      mem_renumber_from _ 1 r hsmem
    exact ⟨r1, hr1, by rw [hd1, hd], by rw [hna1, hna], by rw [hact1, hact]⟩
  · intro hne hk
    have hlen := clean_aux_length steps 1 hk
    rw [clean_plan_steps_eq]
    split
    case isTrue hempty =>
      rw [List.isEmpty_iff] at hempty
      rw [hempty] at hlen
      simp at hlen
      exact absurd (List.eq_nil_of_length_eq_zero hlen.symm) hne
    case isFalse _ => exact hlen

/-- Witness for C7 (amended) on a concrete two-step plan: the string step
survives as a perception/analyze record, nothing is rejected, and the
operator click step got its precondition inserted. -/
theorem normalize_plan_steps_spec_witness :
    (∃ r ∈ normalize_plan_steps sample_plan_input,
      r.description = pyStrip "Click the button" ∧ r.next_agent = "perception" ∧
        r.action = "analyze") ∧
    (clean_plan_steps sample_plan_input).length = sample_plan_input.length ∧
    pre_guarded none (normalize_plan_steps sample_plan_input) = true :=
  ⟨(normalize_plan_steps_spec sample_plan_input).2.2.2.1 "Click the button"
      (by decide) (by decide),
    (normalize_plan_steps_spec sample_plan_input).2.2.2.2 (by decide) (by decide),
    (normalize_plan_steps_spec sample_plan_input).2.1⟩

/-- C7 counterexample: an empty-string step is rejected by
`_clean_plan_steps` (it matches neither the non-empty-string branch nor the
dict branch), so a 2-entry plan cleans to a single record and no output
step corresponds to the empty entry. -/
theorem clean_drops_empty_string_step :
    ([StepIn.strStep "", StepIn.strStep "do x"] : List StepIn).length = 2 ∧
    (clean_plan_steps [StepIn.strStep "", StepIn.strStep "do x"]).length = 1 ∧
    (normalize_plan_steps [StepIn.strStep "", StepIn.strStep "do x"]).length = 1 := by
  decide


/-- The last-valid-span tracking of the scanner agrees, state by state, with
collecting every top-level balanced span and keeping the last one the
parser accepts. -/
theorem scan_spans_agree (parses : List Char → Bool) (text : List Char) :
    ∀ (rest : List Char) (c : ScanCore) (lv : Option (List Char))
      (acc : List (List Char)) (i : Nat),
      lv = (acc.filter parses).getLast? →
      scan_from parses text c lv i rest =
        ((spans_from text c acc i rest).filter parses).getLast? := by
  intro rest
  induction rest with
  | nil => intro c lv acc i h; simpa [scan_from, spans_from] using h
  | cons ch rest ih =>
    intro c lv acc i h
    rcases hstep : scan_step text i ch c with ⟨c1, cand⟩
    cases cand with
    | none =>
      simp only [scan_from, spans_from, hstep]
      exact ih c1 lv acc (i + 1) h
    | some cand =>
      simp only [scan_from, spans_from, hstep]
      apply ih
      rw [List.filter_append]
      cases hp : parses cand
      · simp [List.filter_cons, hp, h]
      · simp [List.filter_cons, hp, List.getLast?_concat]

/-- C4: response extraction returns the last top-level balanced JSON object
that parses successfully, scanning brace depth while ignoring braces inside
quoted strings and tracking escapes.  Part 1: for every JSON-acceptance
oracle and every text, the scanner's answer is the last parser-accepted
element of the list of all top-level balanced spans.  Parts 2-4, with the
grammar model of `json.loads`: of two balanced objects the second (later)
one is returned; with an `assistantfinal` delimiter exactly the object
after the delimiter is returned regardless of the preceding prose; and
literal braces inside a quoted string do not mis-terminate the scan. -/
theorem extraction_spec :
    (∀ (parses : List Char → Bool) (text : List Char),
      scan_last_valid_json_obj parses text =
        ((top_level_spans text).filter parses).getLast?) ∧
    extract_text_from_llm_response jsonOk two_objects_input.data =
      two_objects_second.data ∧
    extract_text_from_llm_response jsonOk assistantfinal_input.data =
      assistantfinal_object.data ∧
    extract_text_from_llm_response jsonOk quoted_brace_input.data =
      quoted_brace_object.data := by
  refine ⟨?_, by decide, by decide, by decide⟩
  intro parses text
  exact scan_spans_agree parses text text _ none [] 0 rfl

end DABot
